import Mathlib

/-!
Verification of the real-time multiplayer coordination engine of the
records-management server (session-to-channel bridge, connection/capacity
manager, TTL caches, and the four in-memory turn-based game state machines).

The JavaScript source is embedded shallowly:
JS arrays become Lean lists with push = append-at-end and pop = remove-at-end;
JS Map containers become association lists preserving insertion order
(Map.set keeps the position of an existing key, appends a new one);
Math.random-driven choices (dice, Fisher-Yates shuffle) are parameters;
Date timestamps are Int milliseconds; fallible paths return Option or Except
(a JS TypeError escaping to the express error middleware is Except.error 500).
-/

namespace Engine

/-- Association-list lookup mirroring Map.get: first entry with the key
(keys are unique in every container the server builds). -/
def mapGet (m : List (String × α)) (k : String) : Option α :=
  (m.find? (fun kv => kv.fst = k)).map (fun kv => kv.snd)

/-- Map.set: replace in place when the key exists (JS Map keeps the original
insertion position), otherwise append at the end. -/
def mapSet (m : List (String × α)) (k : String) (v : α) : List (String × α) :=
  if m.any (fun kv => kv.fst = k) then
    m.map (fun kv => if kv.fst = k then (k, v) else kv)
  else
    m ++ [(k, v)]

/-- Map.delete: remove the entry with the given key. -/
def mapDelete (m : List (String × α)) (k : String) : List (String × α) :=
  m.filter (fun kv => ¬ kv.fst = k)

/-- JS array.pop(): removes and returns the last element; none on empty. -/
def jsPop (l : List α) : Option (α × List α) :=
  match l.getLast? with
  | none => none
  | some x => some (x, l.dropLast)

/-- Pops up to n elements off the end of the list, in pop order
(used for the guarded draw loops; stops when the list is exhausted). -/
def popMany : Nat → List α → List α × List α
  | 0, d => ([], d)
  | n + 1, d =>
    match jsPop d with
    | none => ([], d)
    | some (c, d') =>
      let r := popMany n d'
      (c :: r.fst, r.snd)

/-- JS indexed read arr[i] with a possibly negative index: a negative or
out-of-range index reads the undefined value, modeled as none. -/
def listGetInt (l : List α) (i : Int) : Option α :=
  if i < 0 then none else l[i.toNat]?

/-- Swap of two positions of a list (helper for the Fisher-Yates loop). -/
def jsSwap (l : List α) (i j : Nat) : List α :=
  match l[i]?, l[j]? with
  | some a, some b => (l.set i b).set j a
  | _, _ => l

/-- Inner loop of shuffleArray: for i from the given bound down to 1,
swap position i with position rand i taken modulo i+1 (the JS code draws
floor(random()*(i+1)), a uniform index in 0..i; rand supplies the draw). -/
def shuffleSteps (rand : Nat → Nat) (l : List α) : Nat → List α
  | 0 => l
  | i + 1 => shuffleSteps rand (jsSwap l (i + 1) (rand (i + 1) % (i + 2))) i

/-- shuffleArray: in-place Fisher-Yates permutation of the array,
parameterized by the sequence of random draws. -/
def shuffleArray (rand : Nat → Nat) (l : List α) : List α :=
  shuffleSteps rand l (l.length - 1)

/-- One UNO card: color, face value and card type, all strings as in the
source object literals. -/
structure Card where
  color : String
  value : String
  ctype : String
deriving DecidableEq

/-- createUNODeck: per color one 0, two each of 1-9, two each of
skip/reverse/draw2; then four wild and four wild4 cards (pushed
alternately in a four-iteration loop). -/
def createUNODeck : List Card :=
  (["red", "blue", "green", "yellow"].map (fun color =>
    ({ color := color, value := "0", ctype := "number" } : Card) ::
      ((List.range 9).map (fun i =>
        [({ color := color, value := toString (i + 1), ctype := "number" } : Card),
         { color := color, value := toString (i + 1), ctype := "number" }])).flatten)).flatten
  ++ (["red", "blue", "green", "yellow"].map (fun color =>
      (["skip", "reverse", "draw2"].map (fun special =>
        [({ color := color, value := special, ctype := "special" } : Card),
         { color := color, value := special, ctype := "special" }])).flatten)).flatten
  ++ ((List.range 4).map (fun _ =>
      [({ color := "wild", value := "wild", ctype := "wild" } : Card),
       { color := "wild", value := "wild4", ctype := "wild" }])).flatten

/-- One UNO player: the saidUNO flag of the source is tracked too.
The socketId field mirrors the dynamic JS property of that name read by the
disconnect handler: no code path ever assigns it, so every player object the
server builds leaves it none (the JS value undefined). -/
structure UNOPlayer where
  name : String
  hand : List Card
  saidUNO : Bool := false
  socketId : Option String := none
deriving DecidableEq

/-- UNO match state; createdAt is the Date timestamp in ms. -/
structure UNOGame where
  id : String
  players : List UNOPlayer
  maxPlayers : Nat := 4
  deck : List Card
  discardPile : List Card
  currentPlayerIndex : Nat
  currentColor : String
  currentNumber : String
  direction : Int
  status : String
  winner : Option String := none
  createdAt : Int := 0
deriving DecidableEq

/-- Sum of the hand sizes plus deck plus discard pile: the quantity the
deck-integrity property tracks. -/
def cardCount (g : UNOGame) : Nat :=
  g.deck.length + g.discardPile.length
    + (g.players.map (fun p => p.hand.length)).sum

/-- Turn-pointer arithmetic (idx + direction + playerCount) mod playerCount.
For a nonempty player list and direction in plus or minus one the operand of
the modulus is nonnegative, so Nat arithmetic after toNat matches the JS
remainder operator. -/
def nextIdx (idx : Nat) (dir : Int) (n : Nat) : Nat :=
  (((idx : Int) + dir + (n : Int)).toNat) % n

/-- canPlayUNOCard: a wild is always playable, otherwise color or value must
match the current state. -/
def canPlayUNOCard (card : Card) (currentColor currentNumber : String) : Bool :=
  if card.ctype = "wild" then true
  else card.color = currentColor || card.value = currentNumber

/-- Sets the player at an index (the JS code mutates the object in place;
an index beyond the list would be a TypeError, unreachable because the
callers pass an index reduced modulo the player count). -/
def setPlayerHand (ps : List UNOPlayer) (i : Nat) (f : List Card → List Card) :
    List UNOPlayer :=
  match ps[i]? with
  | none => ps
  | some p => ps.set i { p with hand := f p.hand }

/-- processUNOCardEffect: skip advances two steps, reverse flips the
direction (acting as a skip with two players), draw2/wild4 push up to
2 or 4 cards popped off the deck onto the next player's hand — the loops
run only while the deck is nonempty and never reshuffle — then skip them. -/
def processUNOCardEffect (g : UNOGame) (card : Card) : UNOGame :=
  let n := g.players.length
  let nextPlayerIndex := nextIdx g.currentPlayerIndex g.direction n
  if card.value = "skip" then
    { g with currentPlayerIndex := nextIdx nextPlayerIndex g.direction n }
  else if card.value = "reverse" then
    let g := { g with direction := g.direction * (-1) }
    if n = 2 then
      { g with currentPlayerIndex := nextIdx g.currentPlayerIndex g.direction n }
    else g
  else if card.value = "draw2" then
    let r := popMany 2 g.deck
    { g with deck := r.snd,
             players := setPlayerHand g.players nextPlayerIndex (fun h => h ++ r.fst),
             currentPlayerIndex := nextIdx nextPlayerIndex g.direction n }
  else if card.value = "wild4" then
    let r := popMany 4 g.deck
    { g with deck := r.snd,
             players := setPlayerHand g.players nextPlayerIndex (fun h => h ++ r.fst),
             currentPlayerIndex := nextIdx nextPlayerIndex g.direction n }
  else g

/-- reshuffleUNODeck: when the discard pile has at least two cards, its top
card is kept as the only discard and the rest becomes the new, shuffled deck. -/
def reshuffleUNODeck (rand : Nat → Nat) (g : UNOGame) : UNOGame :=
  if g.discardPile.length ≤ 1 then g
  else
    match jsPop g.discardPile with
    | none => g
    | some (topCard, rest) =>
      { g with deck := shuffleArray rand rest, discardPile := [topCard] }

/-- Worker for the discard-seeding do/while loop, walking the deck from its
top, i.e. over the reversed list: skip (and thereby drop) wild cards until
the first non-wild, which is returned with the not-yet-popped remainder. -/
def burnFromTop : List Card → Option (Card × List Card)
  | [] => none
  | c :: rest =>
    if c.ctype = "wild" then burnFromTop rest
    else some (c, rest.reverse)

/-- Pops from the end of the deck while the popped card is a wild, returning
the first non-wild card and the remaining deck; the popped wilds are simply
dropped, exactly as the do/while loop of initializeUNOGame drops them.
Returns none when the deck runs out (the JS loop would crash there). -/
def burnToFirstNonWild (l : List Card) : Option (Card × List Card) :=
  burnFromTop l.reverse

/-- Number of wild cards at the top of the deck, i.e. the number the
seeding loop burns before it finds a non-wild card. -/
def trailingWilds (l : List Card) : Nat :=
  (l.reverse.takeWhile (fun c => c.ctype = "wild")).length

/-- Deals seven fresh cards to every player in order, popping off the deck
(each hand is reset to empty first, as in the forEach loop). -/
def dealAll : List UNOPlayer → List Card → List UNOPlayer × List Card
  | [], d => ([], d)
  | p :: ps, d =>
    let r := popMany 7 d
    let rest := dealAll ps r.snd
    ({ p with hand := r.fst } :: rest.fst, rest.snd)

/-- initializeUNOGame: build and shuffle a fresh 108-card deck, deal 7 cards
per player, then pop cards until a non-wild appears and seed the discard
pile, current color and number with it. Wilds popped by the seeding loop are
discarded and never returned to play. -/
def initializeUNOGame (rand : Nat → Nat) (g : UNOGame) : Option UNOGame :=
  let deck0 := shuffleArray rand createUNODeck
  let dealt := dealAll g.players deck0
  match burnToFirstNonWild dealt.snd with
  | none => none
  | some (firstCard, deck1) =>
    some { g with players := dealt.fst,
                  deck := deck1,
                  discardPile := [firstCard],
                  currentColor := firstCard.color,
                  currentNumber := firstCard.value,
                  currentPlayerIndex := 0,
                  direction := 1 }

/-- Deck remaining after the deal of initializeUNOGame, before seeding. -/
def deckAfterDeal (rand : Nat → Nat) (g : UNOGame) : List Card :=
  (dealAll g.players (shuffleArray rand createUNODeck)).snd

/-- HTTP-style result of a game endpoint. -/
structure Resp where
  status : Nat
  success : Bool
deriving DecidableEq

/-- Game-level body of POST /api/uno/play-card after the role and lookup
checks (error carries the HTTP status; reading a field of the undefined
card produced by a negative index is the TypeError path, status 500;
an out-of-range currentPlayerIndex would equally be a TypeError). -/
def unoPlayCardCore (username : String) (cardIndex : Int)
    (chosenColor : Option String) (g : UNOGame) : Except Nat UNOGame :=
  match g.players[g.currentPlayerIndex]? with
  | none => .error 500
  | some currentPlayer =>
    if ¬ currentPlayer.name = username then .error 400
    else if cardIndex ≥ (currentPlayer.hand.length : Int) then .error 400
    else
      match listGetInt currentPlayer.hand cardIndex with
      | none => .error 500
      | some card =>
        if ¬ canPlayUNOCard card g.currentColor g.currentNumber then .error 400
        else
          let newHand := currentPlayer.hand.eraseIdx cardIndex.toNat
          let g1 := { g with
            players := g.players.set g.currentPlayerIndex
                        { currentPlayer with hand := newHand },
            discardPile := g.discardPile ++ [card],
            currentColor :=
              if card.ctype = "wild" then
                match chosenColor with
                | some c => if c = "" then "red" else c
                | none => "red"
              else card.color,
            currentNumber := card.value }
          let g2 := processUNOCardEffect g1 card
          let liveHand :=
            match g2.players[g.currentPlayerIndex]? with
            | some p => p.hand
            | none => newHand
          if liveHand.length = 0 then
            .ok { g2 with status := "finished", winner := some currentPlayer.name }
          else
            .ok { g2 with currentPlayerIndex :=
                    nextIdx g2.currentPlayerIndex g2.direction g2.players.length }

/-- Game-level body of POST /api/uno/draw-card after the role and lookup
checks: reshuffle when the deck is empty, then pop one card to the acting
player and pass the turn — when even the reshuffle yields nothing the
request still succeeds having drawn nothing. -/
def unoDrawCardCore (rand : Nat → Nat) (username : String) (g : UNOGame) :
    Except Nat UNOGame :=
  match g.players[g.currentPlayerIndex]? with
  | none => .error 500
  | some currentPlayer =>
    if ¬ currentPlayer.name = username then .error 400
    else
      let g1 := if g.deck.length = 0 then reshuffleUNODeck rand g else g
      if g1.deck.length > 0 then
        match jsPop g1.deck with
        | none => .ok g1
        | some (c, deck') =>
          .ok { g1 with
            deck := deck',
            players := setPlayerHand g1.players g1.currentPlayerIndex
                        (fun h => h ++ [c]),
            currentPlayerIndex :=
              nextIdx g1.currentPlayerIndex g1.direction g1.players.length }
      else .ok g1

/-- Game-level body of POST /api/uno/join/:gameId after role and lookup:
reject when full or already joined, append the player, and once two or more
players are present mark the match playing and run initializeUNOGame. -/
def unoJoinCore (rand : Nat → Nat) (username : String) (g : UNOGame) :
    Except Nat UNOGame :=
  if g.players.length ≥ g.maxPlayers then .error 400
  else if g.players.any (fun p => p.name = username) then .error 400
  else
    let g1 := { g with players := g.players ++ [{ name := username, hand := [] }] }
    if g1.players.length ≥ 2 then
      match initializeUNOGame rand { g1 with status := "playing" } with
      | some g2 => .ok g2
      | none => .error 500
    else .ok g1

/-- Association-list container of UNO matches. -/
abbrev UnoMap := List (String × UNOGame)

/-- POST /api/uno/play-card: role gate, container lookup, core, then on
success write the match back and emit exactly one gaming-room broadcast
(the middle component counts room-scoped emits). -/
def unoPlayCard (username role gameId : String) (cardIndex : Int)
    (chosenColor : Option String) (games : UnoMap) : UnoMap × Nat × Resp :=
  if ¬ role = "gamer" then (games, 0, ⟨403, false⟩)
  else
    match mapGet games gameId with
    | none => (games, 0, ⟨404, false⟩)
    | some g =>
      match unoPlayCardCore username cardIndex chosenColor g with
      | .error code => (games, 0, ⟨code, false⟩)
      | .ok g' => (mapSet games gameId g', 1, ⟨200, true⟩)

/-- POST /api/uno/draw-card wrapper, same shape as the play endpoint. -/
def unoDrawCard (rand : Nat → Nat) (username role gameId : String)
    (games : UnoMap) : UnoMap × Nat × Resp :=
  if ¬ role = "gamer" then (games, 0, ⟨403, false⟩)
  else
    match mapGet games gameId with
    | none => (games, 0, ⟨404, false⟩)
    | some g =>
      match unoDrawCardCore rand username g with
      | .error code => (games, 0, ⟨code, false⟩)
      | .ok g' => (mapSet games gameId g', 1, ⟨200, true⟩)

/-- POST /api/uno/join/:gameId wrapper (joins also broadcast once on
success; they are lifecycle operations, not act endpoints). -/
def unoJoin (rand : Nat → Nat) (username role gameId : String)
    (games : UnoMap) : UnoMap × Nat × Resp :=
  if ¬ role = "gamer" then (games, 0, ⟨403, false⟩)
  else
    match mapGet games gameId with
    | none => (games, 0, ⟨404, false⟩)
    | some g =>
      match unoJoinCore rand username g with
      | .error code => (games, 0, ⟨code, false⟩)
      | .ok g' => (mapSet games gameId g', 1, ⟨200, true⟩)

/-- Chess board: 8 rows of 8 cells, a cell holding a one-letter piece code
or null. -/
abbrev Board := List (List (Option String))

/-- initializeChessBoard literal. -/
def initializeChessBoard : Board :=
  [[some "r", some "n", some "b", some "q", some "k", some "b", some "n", some "r"],
   [some "p", some "p", some "p", some "p", some "p", some "p", some "p", some "p"],
   [none, none, none, none, none, none, none, none],
   [none, none, none, none, none, none, none, none],
   [none, none, none, none, none, none, none, none],
   [none, none, none, none, none, none, none, none],
   [some "P", some "P", some "P", some "P", some "P", some "P", some "P", some "P"],
   [some "R", some "N", some "B", some "Q", some "K", some "B", some "N", some "R"]]

/-- parseInt(square[1]): the digit value, none when the character is missing
or not a digit (the JS NaN, which then fails inside the board access). -/
def chessRow (s : String) : Option Int :=
  match s.data[1]? with
  | none => none
  | some c => if c.isDigit then some ((c.toNat : Int) - 48) else none

/-- square.charCodeAt(0) - 97 as a signed value; none on the empty string. -/
def chessCol (s : String) : Option Int :=
  match s.data[0]? with
  | none => none
  | some c => some ((c.toNat : Int) - 97)

/-- Read board[r][c]. -/
def boardGet (b : Board) (r c : Nat) : Option String :=
  match b[r]? with
  | none => none
  | some row => (row[c]?).getD none

/-- Write board[r][c]. -/
def boardSet (b : Board) (r c : Nat) (v : Option String) : Board :=
  match b[r]? with
  | none => b
  | some row => b.set r (row.set c v)

/-- isValidMove: bounds check on both squares, non-empty origin, and the
piece's case must match the mover's color; everything further is the
documented minimal stub. A non-digit rank (JS NaN) ends in a TypeError in
the source, observationally a rejection, modeled as false. -/
def isValidMove (b : Board) (fromSq toSq : String) (playerColor : String) : Bool :=
  match chessRow fromSq, chessCol fromSq, chessRow toSq, chessCol toSq with
  | some fr, some fc, some tr, some tc =>
    if fr < 0 || fr > 7 || fc < 0 || fc > 7
        || tr < 0 || tr > 7 || tc < 0 || tc > 7 then false
    else
      match boardGet b (7 - fr).toNat fc.toNat with
      | none => false
      | some piece =>
        let pieceColor := if piece.toUpper = piece then "white" else "black"
        pieceColor = playerColor
  | _, _, _, _ => false

/-- makeMove: copy the origin piece to the target, clear the origin
(called only after isValidMove succeeded, so the coordinates are digits
and in bounds). -/
def makeMove (b : Board) (fromSq toSq : String) : Board :=
  match chessRow fromSq, chessCol fromSq, chessRow toSq, chessCol toSq with
  | some fr, some fc, some tr, some tc =>
    let piece := boardGet b (7 - fr).toNat fc.toNat
    boardSet (boardSet b (7 - tr).toNat tc.toNat piece) (7 - fr).toNat fc.toNat none
  | _, _, _, _ => b

/-- isCheckmate stub: always false. -/
def isCheckmate (_b : Board) (_color : String) : Bool := false

/-- isStalemate stub: always false. -/
def isStalemate (_b : Board) (_color : String) : Bool := false

/-- Chess match record; the moves log keeps (from, to, player). -/
structure ChessGame where
  id : String
  players : List String
  board : Board
  turn : String
  status : String
  moves : List (String × String × String) := []
  winner : Option String := none
  createdAt : Int := 0
deriving DecidableEq

/-- Game-level body of POST /api/chess/move after role and lookup checks. -/
def chessMoveCore (username fromSq toSq : String) (g : ChessGame) :
    Except Nat ChessGame :=
  if ¬ g.players.contains username then .error 403
  else
    let playerColor := if g.players[0]? = some username then "white" else "black"
    if ¬ g.turn = playerColor then .error 400
    else if isValidMove g.board fromSq toSq playerColor then
      let b := makeMove g.board fromSq toSq
      let g1 := { g with board := b,
                         moves := g.moves ++ [(fromSq, toSq, username)],
                         turn := if g.turn = "white" then "black" else "white" }
      if isCheckmate g1.board g1.turn then
        .ok { g1 with status := "finished", winner := some playerColor }
      else if isStalemate g1.board g1.turn then
        .ok { g1 with status := "draw" }
      else .ok g1
    else .error 400

/-- Game-level body of POST /api/chess/join/:gameId: reject when full or a
repeat join, otherwise append the player and set the match playing. -/
def chessJoinCore (username : String) (g : ChessGame) : Except Nat ChessGame :=
  if g.players.length ≥ 2 then .error 400
  else if g.players.contains username then .error 400
  else .ok { g with players := g.players ++ [username], status := "playing" }

abbrev ChessMap := List (String × ChessGame)

/-- POST /api/chess/move wrapper with the single gaming-room broadcast on
success. -/
def chessMove (username role gameId fromSq toSq : String) (games : ChessMap) :
    ChessMap × Nat × Resp :=
  if ¬ role = "gamer" then (games, 0, ⟨403, false⟩)
  else
    match mapGet games gameId with
    | none => (games, 0, ⟨404, false⟩)
    | some g =>
      match chessMoveCore username fromSq toSq g with
      | .error code => (games, 0, ⟨code, false⟩)
      | .ok g' => (mapSet games gameId g', 1, ⟨200, true⟩)

/-- Tic-tac-toe player. The socketId field mirrors the dynamic JS property
read by the disconnect handler, never assigned anywhere. -/
structure TTTPlayer where
  name : String
  symbol : String
  socketId : Option String := none
deriving DecidableEq

/-- Tic-tac-toe match: 9 string cells, empty string for a free cell. -/
structure TTTGame where
  id : String
  players : List TTTPlayer
  board : List String
  currentPlayer : String
  status : String
  winner : Option String := none
  createdAt : Int := 0
deriving DecidableEq

/-- The eight winning triples, in source order. -/
def winPatterns : List (Nat × Nat × Nat) :=
  [(0, 1, 2), (3, 4, 5), (6, 7, 8),
   (0, 3, 6), (1, 4, 7), (2, 5, 8),
   (0, 4, 8), (2, 4, 6)]

/-- checkTicTacToeWinner: the first pattern whose three cells hold the same
non-empty symbol. -/
def checkTicTacToeWinner (board : List String) : Option String :=
  (winPatterns.filterMap (fun pat =>
    match board[pat.1]?, board[pat.2.1]?, board[pat.2.2]? with
    | some a, some b, some c =>
      if ¬ a = "" ∧ a = b ∧ a = c then some a else none
    | _, _, _ => none)).head?

/-- Game-level body of POST /api/tictactoe/move after role and lookup.
An out-of-range position reads undefined, which is not the empty string,
so the occupied-cell check rejects it. -/
def tttMoveCore (username : String) (position : Int) (g : TTTGame) :
    Except Nat TTTGame :=
  if ¬ g.players.any (fun p => p.name = username) then .error 403
  else
    match g.players.find? (fun p => p.name = username) with
    | none => .error 403
    | some player =>
      if ¬ g.currentPlayer = player.symbol then .error 400
      else
        match listGetInt g.board position with
        | none => .error 400
        | some cell =>
          if ¬ cell = "" then .error 400
          else
            let board := g.board.set position.toNat player.symbol
            let g1 := { g with board := board }
            match checkTicTacToeWinner g1.board with
            | some w => .ok { g1 with status := "finished", winner := some w }
            | none =>
              if g1.board.all (fun c => ¬ c = "") then
                .ok { g1 with status := "draw" }
              else
                .ok { g1 with currentPlayer :=
                        if g1.currentPlayer = "X" then "O" else "X" }

abbrev TTTMap := List (String × TTTGame)

/-- POST /api/tictactoe/move wrapper. -/
def tttMove (username role gameId : String) (position : Int) (games : TTTMap) :
    TTTMap × Nat × Resp :=
  if ¬ role = "gamer" then (games, 0, ⟨403, false⟩)
  else
    match mapGet games gameId with
    | none => (games, 0, ⟨404, false⟩)
    | some g =>
      match tttMoveCore username position g with
      | .error code => (games, 0, ⟨code, false⟩)
      | .ok g' => (mapSet games gameId g', 1, ⟨200, true⟩)

/-- JS truthiness default for string request fields: value || fallback. -/
def orDefaultStr (o : Option String) (d : String) : String :=
  match o with
  | none => d
  | some s => if s = "" then d else s

/-- One race-game piece; position -1 is home, 0 to 56 is track and goal. -/
structure LudoPiece where
  position : Int
  pid : Nat
deriving DecidableEq

/-- Race-game player. The socketId field mirrors the dynamic JS property
read by the disconnect handler, never assigned anywhere. -/
structure LudoPlayer where
  name : String
  pieces : List LudoPiece
  piecesInGoal : Nat
  isComputer : Bool := false
  difficulty : Option String := none
  socketId : Option String := none
deriving DecidableEq

/-- Race match state; maxPlayers is a JS number set from the request. -/
structure LudoGame where
  id : String
  players : List LudoPlayer
  maxPlayers : Int := 4
  status : String
  currentPlayerIndex : Nat
  diceRolled : Bool := false
  lastDiceRoll : Option Nat := none
  board : Option (List (Option String)) := none
  gameMode : Option String := none
  winner : Option String := none
  createdAt : Int := 0
deriving DecidableEq

/-- The four home pieces every new player receives. -/
def freshPieces : List LudoPiece :=
  [⟨-1, 0⟩, ⟨-1, 1⟩, ⟨-1, 2⟩, ⟨-1, 3⟩]

/-- initializeLudoBoard: Array(52).fill(null). -/
def initializeLudoBoard : List (Option String) := List.replicate 52 none

/-- charAt(0).toUpperCase() + slice(1). -/
def capitalizeStr (s : String) : String :=
  match s.data with
  | [] => ""
  | c :: cs => (Char.toUpper c :: cs).asString

/-- Game-level body of POST /api/ludo/join/:gameId. -/
def ludoJoinCore (username : String) (g : LudoGame) : Except Nat LudoGame :=
  if (g.players.length : Int) ≥ g.maxPlayers then .error 400
  else if g.players.any (fun p => p.name = username) then .error 400
  else .ok { g with players := g.players ++
              [{ name := username, pieces := freshPieces, piecesInGoal := 0 }] }

/-- Game-level body of POST /api/ludo/start/:gameId: clamps the requested
player count to 2..8, optionally fills with computer players, then writes
status playing and a fresh board — with no check of the current status. -/
def ludoStartCore (playerCount : Int) (addComputer : Bool)
    (gameMode : Option String) (difficulty : Option String) (g : LudoGame) :
    LudoGame :=
  let maxP := min (max playerCount 2) 8
  let isSingle := gameMode = some "single"
  let g1 := { g with maxPlayers := maxP,
                     gameMode := some (orDefaultStr gameMode "multi") }
  let g2 :=
    if addComputer ∧ (g1.players.length : Int) < maxP then
      let needed := (maxP - (g1.players.length : Int)).toNat
      let difficulties := ["Easy", "Medium", "Hard"]
      let comps := (List.range needed).map (fun i =>
        let diffName :=
          if isSingle then capitalizeStr (orDefaultStr difficulty "medium")
          else difficulties.getD (i % difficulties.length) ""
        ({ name := if isSingle then "Computer (" ++ diffName ++ ")"
                   else "Computer " ++ toString (i + 1),
           pieces := freshPieces,
           piecesInGoal := 0,
           isComputer := true,
           difficulty := some (if isSingle then orDefaultStr difficulty "medium"
                               else "medium") } : LudoPlayer))
      { g1 with players := g1.players ++ comps }
    else g1
  { g2 with status := "playing", board := some initializeLudoBoard }

/-- Game-level body of POST /api/ludo/roll/:gameId: only existence, turn
and the already-rolled flag are checked (not the status); the die is
floor(random()*6)+1, modeled as rand mod 6 plus 1. The deferred
auto-advance scheduled one second later for computer players or dead rolls
is a separate task that emits nothing and writes no status. -/
def ludoRollCore (rand : Nat) (username : String) (g : LudoGame) :
    Except Nat (LudoGame × Nat) :=
  match g.players[g.currentPlayerIndex]? with
  | none => .error 500
  | some currentPlayer =>
    if ¬ currentPlayer.name = username then .error 400
    else if g.diceRolled then .error 400
    else
      let diceRoll := rand % 6 + 1
      .ok ({ g with lastDiceRoll := some diceRoll, diceRolled := true }, diceRoll)

/-- The ludo-move channel handler: silently ignores the message unless the
match is playing, it is the sender's turn, and the piece index is valid
(an invalid index is a TypeError in the handler, also producing no effect).
A six releases a home piece; a piece on the track advances capped at 56,
position 56 bumps the goal counter; four in goal finishes the match; a
non-six passes the turn. Some = processed with one broadcast. -/
def ludoMoveSocket (username : String) (pieceIndex : Int) (diceRoll : Int)
    (g : LudoGame) : Option LudoGame :=
  if ¬ g.status = "playing" then none
  else
    match g.players[g.currentPlayerIndex]? with
    | none => none
    | some currentPlayer =>
      if ¬ currentPlayer.name = username then none
      else
        match listGetInt currentPlayer.pieces pieceIndex with
        | none => none
        | some piece =>
          let upd :=
            if piece.position = -1 ∧ diceRoll = 6 then
              ({ piece with position := 0 }, 0)
            else if piece.position ≥ 0 then
              let np := min (piece.position + diceRoll) 56
              ({ piece with position := np }, if np = 56 then 1 else 0)
            else (piece, 0)
          let player1 := { currentPlayer with
            pieces := currentPlayer.pieces.set pieceIndex.toNat upd.fst,
            piecesInGoal := currentPlayer.piecesInGoal + upd.snd }
          let g1 := { g with players := g.players.set g.currentPlayerIndex player1 }
          let g2 :=
            if player1.piecesInGoal = 4 then
              { g1 with status := "finished", winner := some player1.name }
            else g1
          let g3 :=
            if ¬ diceRoll = 6 then
              { g2 with currentPlayerIndex :=
                  (g2.currentPlayerIndex + 1) % g2.players.length }
            else g2
          some { g3 with diceRolled := false, lastDiceRoll := none }

abbrev LudoMap := List (String × LudoGame)

/-- POST /api/ludo/roll/:gameId wrapper with its single broadcast. -/
def ludoRoll (rand : Nat) (username role gameId : String) (games : LudoMap) :
    LudoMap × Nat × Resp :=
  if ¬ role = "gamer" then (games, 0, ⟨403, false⟩)
  else
    match mapGet games gameId with
    | none => (games, 0, ⟨404, false⟩)
    | some g =>
      match ludoRollCore rand username g with
      | .error code => (games, 0, ⟨code, false⟩)
      | .ok gr => (mapSet games gameId gr.fst, 1, ⟨200, true⟩)

/-- POST /api/ludo/start/:gameId wrapper: succeeds on any existing match. -/
def ludoStart (role gameId : String) (playerCount : Int) (addComputer : Bool)
    (gameMode : Option String) (difficulty : Option String) (games : LudoMap) :
    LudoMap × Nat × Resp :=
  if ¬ role = "gamer" then (games, 0, ⟨403, false⟩)
  else
    match mapGet games gameId with
    | none => (games, 0, ⟨404, false⟩)
    | some g =>
      (mapSet games gameId
        (ludoStartCore playerCount addComputer gameMode difficulty g),
       1, ⟨200, true⟩)

/-- POST /api/ludo/join/:gameId wrapper. -/
def ludoJoin (username role gameId : String) (games : LudoMap) :
    LudoMap × Nat × Resp :=
  if ¬ role = "gamer" then (games, 0, ⟨403, false⟩)
  else
    match mapGet games gameId with
    | none => (games, 0, ⟨404, false⟩)
    | some g =>
      match ludoJoinCore username g with
      | .error code => (games, 0, ⟨code, false⟩)
      | .ok g' => (mapSet games gameId g', 1, ⟨200, true⟩)

/-- The three connection counters. -/
structure ConnState where
  active : Nat
  homepage : Nat
  authenticated : Nat
deriving DecidableEq

/-- Events a freshly admitted socket may receive from the capacity check. -/
inductive ConnEvent where
  | serverOverload (message : String) (retryAfterMs : Nat)
  | disconnected
deriving DecidableEq

/-- maxConnections ceiling. -/
def maxConnections : Nat := 300

/-- The io connection handler's counter-and-capacity prologue: increment the
global counter and the classification counter picked from the referer
heuristic, and when the global counter now exceeds the ceiling, emit the
overload notice, disconnect, and decrement both counters again. -/
def onConnection (st : ConnState) (isHomepageUser : Bool) :
    ConnState × List ConnEvent :=
  let st1 := { st with
    active := st.active + 1,
    homepage := if isHomepageUser then st.homepage + 1 else st.homepage,
    authenticated := if isHomepageUser then st.authenticated
                     else st.authenticated + 1 }
  if st1.active > maxConnections then
    ({ st1 with
        active := st1.active - 1,
        homepage := if isHomepageUser then st1.homepage - 1 else st1.homepage,
        authenticated := if isHomepageUser then st1.authenticated
                         else st1.authenticated - 1 },
     [ConnEvent.serverOverload
        "Server at capacity, please try again in a few moments" 30000,
      ConnEvent.disconnected])
  else (st1, [])

/-- One cache entry: stored data plus the write timestamp. -/
structure CacheEntry (α : Type) where
  data : α
  timestamp : Int
deriving DecidableEq

/-- General-cache TTL in ms. -/
def CACHE_DURATION : Int := 60000

/-- Homepage-cache TTL in ms. -/
def HOMEPAGE_CACHE_DURATION : Int := 30000

/-- Shared shape of getCachedData and getHomepageCachedData: return the
stored data only while younger than the TTL; the read path performs no
mutation, so the cache it leaves behind is returned unchanged alongside. -/
def getCachedAt (ttl : Int) (now : Int) (cache : List (String × CacheEntry α))
    (key : String) : Option α × List (String × CacheEntry α) :=
  (match mapGet cache key with
   | some e => if now - e.timestamp < ttl then some e.data else none
   | none => none,
   cache)

/-- Shared shape of setCachedData and setHomepageCachedData: store under the
current timestamp, then if the entry count exceeds the bound delete the
first-inserted key. -/
def setCachedAt (bound : Nat) (now : Int) (cache : List (String × CacheEntry α))
    (key : String) (v : α) : List (String × CacheEntry α) :=
  let c := mapSet cache key { data := v, timestamp := now }
  if c.length > bound then
    match c.head? with
    | some kv => mapDelete c kv.fst
    | none => c
  else c

/-- getCachedData on the general tier. -/
def getCachedData (now : Int) (cache : List (String × CacheEntry α))
    (key : String) : Option α × List (String × CacheEntry α) :=
  getCachedAt CACHE_DURATION now cache key

/-- getHomepageCachedData on the public tier. -/
def getHomepageCachedData (now : Int) (cache : List (String × CacheEntry α))
    (key : String) : Option α × List (String × CacheEntry α) :=
  getCachedAt HOMEPAGE_CACHE_DURATION now cache key

/-- setCachedData with its bound of 50 entries. -/
def setCachedData (now : Int) (cache : List (String × CacheEntry α))
    (key : String) (v : α) : List (String × CacheEntry α) :=
  setCachedAt 50 now cache key v

/-- setHomepageCachedData with its bound of 20 entries. -/
def setHomepageCachedData (now : Int) (cache : List (String × CacheEntry α))
    (key : String) (v : α) : List (String × CacheEntry α) :=
  setCachedAt 20 now cache key v

/-- Authenticated user data held by a session record. -/
structure SessUser where
  username : String
  role : String
deriving DecidableEq

/-- A session-store record; user is absent when the session never logged in. -/
structure Session where
  user : Option SessUser
deriving DecidableEq

/-- Result of the channel authentication middleware: admission with the
identity attached to the socket, one of the five typed rejections, or the
URIError a malformed sid cookie value raises inside decodeURIComponent —
the middleware runner has no handler around it, so that exception escapes
and the handshake is neither admitted nor rejected with a typed reason. -/
inductive WsAuthResult where
  | admitted (username : String) (role : String)
  | rejectedNoCookies
  | rejectedCookieMissing
  | rejectedInvalidFormat
  | rejectedInvalidSid
  | rejectedSessionNotFound
  | uncaughtDecodeError
deriving DecidableEq

/-- True when the middleware produced one of the outcomes the claim talks
about: an admission or one of the five typed rejections; false on the
escaped URIError. -/
def admittedOrTypedReason : WsAuthResult → Bool
  | .admitted _ _ => true
  | .rejectedNoCookies => true
  | .rejectedCookieMissing => true
  | .rejectedInvalidFormat => true
  | .rejectedInvalidSid => true
  | .rejectedSessionNotFound => true
  | .uncaughtDecodeError => false

/-- The whitespace class String.prototype.trim removes: tab, LF, VT, FF,
CR, space, NBSP, BOM, the Unicode space separators and the two Unicode
line terminators. -/
def isJsSpace (c : Char) : Bool :=
  c = ' ' || c = '\t' || c = '\n' || c = '\r'
  || c.toNat = 11 || c.toNat = 12
  || c.toNat = 160 || c.toNat = 65279
  || c.toNat = 5760
  || (8192 ≤ c.toNat && c.toNat ≤ 8202)
  || c.toNat = 8232 || c.toNat = 8233
  || c.toNat = 8239 || c.toNat = 8287 || c.toNat = 12288

/-- String.prototype.trim over the character list. -/
def trimChars (l : List Char) : List Char :=
  ((l.dropWhile isJsSpace).reverse.dropWhile isJsSpace).reverse

/-- String.prototype.split with a one-character separator, the only form
the middleware uses (split on the semicolon, the equals sign and the dot);
like in JS, splitting the empty string yields one empty piece. -/
def charSplit (sep : Char) : List Char → List (List Char)
  | [] => [[]]
  | c :: rest =>
    let r := charSplit sep rest
    if c = sep then [] :: r
    else
      match r with
      | [] => [[c]]
      | x :: xs => (c :: x) :: xs

/-- The handler's simple cookie parser: split the header on the semicolons,
then each piece on the equals signs; pieces with at least two parts
contribute the trimmed first part as key and the untrimmed second part as
value, later entries overwriting earlier ones (object assignment). -/
def parseCookies (header : List Char) : List (List Char × List Char) :=
  (charSplit ';' header).foldl (fun acc c =>
    match charSplit '=' c with
    | k :: v :: _ => acc ++ [(trimChars k, v)]
    | _ => acc) []

/-- Object-property read over the parsed cookie list: the last write wins. -/
def cookieLookup (cs : List (List Char × List Char)) (k : List Char) :
    Option (List Char) :=
  (cs.reverse.find? (fun kv => kv.fst = k)).map (fun kv => kv.snd)

/-- Hex digit value for percent decoding. -/
def hexDigitVal (c : Char) : Option Nat :=
  if c.isDigit then some (c.toNat - 48)
  else if 'a' ≤ c ∧ c ≤ 'f' then some (c.toNat - 97 + 10)
  else if 'A' ≤ c ∧ c ≤ 'F' then some (c.toNat - 65 + 10)
  else none

/-- First pass of decodeURIComponent: each percent escape must carry two
hex digits and becomes a byte (inr), every other character passes through
as itself (inl); a percent sign without two hex digits is the URIError. -/
def percentTokens : List Char → Option (List (Sum Char Nat))
  | [] => some []
  | '%' :: a :: b :: rest =>
    match hexDigitVal a, hexDigitVal b with
    | some x, some y =>
      (percentTokens rest).map (fun t => Sum.inr (16 * x + y) :: t)
    | _, _ => none
  | '%' :: _ => none
  | c :: rest => (percentTokens rest).map (fun t => Sum.inl c :: t)

/-- Second pass of decodeURIComponent: runs of escape bytes must form
strictly valid UTF-8 (no overlong forms, no surrogates, nothing past
0x10FFFF, continuation bytes in 0x80..0xBF), anything else is the
URIError; pass-through characters are kept as they are. -/
def utf8Assemble : List (Sum Char Nat) → Option (List Char)
  | [] => some []
  | Sum.inl c :: rest => (utf8Assemble rest).map (fun d => c :: d)
  | Sum.inr v :: rest =>
    if v < 128 then
      (utf8Assemble rest).map (fun d => Char.ofNat v :: d)
    else if 192 ≤ v ∧ v < 224 then
      match rest with
      | Sum.inr c1 :: rest1 =>
        let cp := (v % 32) * 64 + c1 % 64
        if (128 ≤ c1 ∧ c1 < 192) ∧ 128 ≤ cp then
          (utf8Assemble rest1).map (fun d => Char.ofNat cp :: d)
        else none
      | _ => none
    else if 224 ≤ v ∧ v < 240 then
      match rest with
      | Sum.inr c1 :: Sum.inr c2 :: rest2 =>
        let cp := (v % 16) * 4096 + (c1 % 64) * 64 + c2 % 64
        if (128 ≤ c1 ∧ c1 < 192) ∧ (128 ≤ c2 ∧ c2 < 192)
            ∧ 2048 ≤ cp ∧ ¬ (55296 ≤ cp ∧ cp ≤ 57343) then
          (utf8Assemble rest2).map (fun d => Char.ofNat cp :: d)
        else none
      | _ => none
    else if 240 ≤ v ∧ v < 248 then
      match rest with
      | Sum.inr c1 :: Sum.inr c2 :: Sum.inr c3 :: rest3 =>
        let cp := (v % 8) * 262144 + (c1 % 64) * 4096 + (c2 % 64) * 64 + c3 % 64
        if (128 ≤ c1 ∧ c1 < 192) ∧ (128 ≤ c2 ∧ c2 < 192)
            ∧ (128 ≤ c3 ∧ c3 < 192) ∧ 65536 ≤ cp ∧ cp ≤ 1114111 then
          (utf8Assemble rest3).map (fun d => Char.ofNat cp :: d)
        else none
      | _ => none
    else none

/-- decodeURIComponent over the cookie value's characters: some on
success, none where the builtin throws a URIError (a percent sign without
two hex digits, or escape bytes that are not strictly valid UTF-8). -/
def percentDecode (l : List Char) : Option (List Char) :=
  match percentTokens l with
  | none => none
  | some t => utf8Assemble t

/-- The signed-session prefix before the session id in the cookie value. -/
def sessionPrefix : List Char := ['s', ':']

/-- Session-store lookup; none stands for both a store error and a missing
or expired session (err-or-absent in the callback). -/
def sessionLookup (store : List (String × Session)) (sid : String) :
    Option Session :=
  mapGet store sid

/-- The io.use authentication middleware: a missing or empty cookie header
(the falsy check) yields the no-cookies rejection; a missing or empty sid
cookie, a decoded value without the signed-session prefix, an empty
extracted session id, and a session that cannot be resolved or has no user
each get their own rejection; a sid value on which decodeURIComponent
throws makes the URIError escape the middleware; otherwise the session's
username and role are attached and the connection is admitted. -/
def wsAuthenticate (store : List (String × Session))
    (cookieHeader : Option String) : WsAuthResult :=
  match cookieHeader with
  | none => .rejectedNoCookies
  | some header =>
    if header = "" then .rejectedNoCookies
    else
      match cookieLookup (parseCookies header.data) ['s', 'i', 'd'] with
      | none => .rejectedCookieMissing
      | some raw =>
        if raw = [] then .rejectedCookieMissing
        else
          match percentDecode raw with
          | none => .uncaughtDecodeError
          | some sidCookie =>
            if ¬ sidCookie.take 2 = sessionPrefix then .rejectedInvalidFormat
            else
              let sid := (charSplit '.' (sidCookie.drop 2)).headD []
              if sid = [] then .rejectedInvalidSid
              else
                match sessionLookup store sid.asString with
                | none => .rejectedSessionNotFound
                | some sess =>
                  match sess.user with
                  | none => .rejectedSessionNotFound
                  | some u => .admitted u.username u.role

/-- A connected socket as the server sees it after admission: the middleware
assigns username and role. The sessionId property that the disconnect
handler reads is never assigned by any code path, hence none. -/
structure Socket where
  sid : String
  username : String
  role : String
  sessionId : Option String := none
deriving DecidableEq

/-- Socket produced by a successful admission: only username and role are
attached. -/
def admittedSocket (sid username role : String) : Socket :=
  { sid := sid, username := username, role := role }

/-- The four in-memory match containers. -/
structure GameWorld where
  chessGames : ChessMap
  ludoGames : LudoMap
  ticTacToeGames : TTTMap
  unoGames : UnoMap
deriving DecidableEq

/-- The disconnect handler's per-container cleanup for authenticated
connections: a chess match is abandoned when its players array contains
socket.sessionId; the other three when some player carries the socket's id
in a socketId property. Each hit writes status abandoned and schedules one
deferred deletion; the second component counts the scheduled timers. -/
def abandonMatching (pred : α → Bool)
    (setStatus : α → String → α) (games : List (String × α)) :
    List (String × α) × Nat :=
  (games.map (fun kv => if pred kv.snd then (kv.fst, setStatus kv.snd "abandoned")
                        else kv),
   (games.filter (fun kv => pred kv.snd)).length)

/-- Whole disconnect handler body after the counter decrements: homepage
connections clean nothing; for authenticated ones all four containers are
scanned with the predicates of the source. -/
def onDisconnectWorld (sock : Socket) (isHomepageUser : Bool) (w : GameWorld) :
    GameWorld × Nat :=
  if isHomepageUser then (w, 0)
  else
    let chess := abandonMatching
      (fun g => match sock.sessionId with
                | none => false
                | some sid => g.players.contains sid)
      (fun g s => { g with status := s }) w.chessGames
    let ludo := abandonMatching
      (fun g => g.players.any (fun p => p.socketId = some sock.sid))
      (fun g s => { g with status := s }) w.ludoGames
    let ttt := abandonMatching
      (fun g => g.players.any (fun p => p.socketId = some sock.sid))
      (fun g s => { g with status := s }) w.ticTacToeGames
    let uno := abandonMatching
      (fun g => g.players.any (fun p => p.socketId = some sock.sid))
      (fun g s => { g with status := s }) w.unoGames
    ({ chessGames := chess.fst, ludoGames := ludo.fst,
       ticTacToeGames := ttt.fst, unoGames := uno.fst },
     chess.snd + ludo.snd + ttt.snd + uno.snd)

/-- The deferred task a disconnect schedules for a ludo match: plain
container deletion after the 5-minute window, with no further check. -/
def deferredLudoDelete (games : LudoMap) (gameId : String) : LudoMap :=
  mapDelete games gameId

/-- The periodic cleanup's ludo pass: delete every match that is abandoned
and was created more than five minutes before now. -/
def cleanupLudoGames (now : Int) (games : LudoMap) : LudoMap :=
  games.filter (fun kv =>
    ¬ (kv.snd.status = "abandoned" ∧ kv.snd.createdAt < now - 300000))

/-- Spec-side statement of the deck distribution: per color one 0, two each
of 1-9 and two each of the three specials, plus four wild and four wild4
cards, written from the specification's words so the constructed deck can
be checked against it. -/
def specDeckDistribution : Bool :=
  (["red", "blue", "green", "yellow"].all (fun col =>
    (createUNODeck.countP
      (fun c => c.color == col && c.value == "0" && c.ctype == "number") == 1)
    && ((List.range 9).all (fun i =>
        createUNODeck.countP (fun c =>
          c.color == col && c.value == toString (i + 1)
            && c.ctype == "number") == 2))
    && (["skip", "reverse", "draw2"].all (fun sp =>
        createUNODeck.countP (fun c =>
          c.color == col && c.value == sp && c.ctype == "special") == 2))))
  && (createUNODeck.countP (fun c => c.value == "wild") == 4)
  && (createUNODeck.countP (fun c => c.value == "wild4") == 4)

/-- In-play step of a running card match: an accepted play-card or
draw-card action (the random draws of a possible reshuffle are arbitrary). -/
inductive UNOStep : UNOGame → UNOGame → Prop
  | play (u : String) (ci : Int) (cc : Option String) {g g' : UNOGame} :
      unoPlayCardCore u ci cc g = .ok g' → UNOStep g g'
  | draw (rand : Nat → Nat) (u : String) {g g' : UNOGame} :
      unoDrawCardCore rand u g = .ok g' → UNOStep g g'

/-- Stage of a match status in the lifecycle: waiting before playing before
the terminal statuses. -/
def statusRank (s : String) : Nat :=
  if s = "waiting" then 0 else if s = "playing" then 1 else 2

/-- Spec-side transition graph of the claim: waiting to playing, playing to
finished, draw or abandoned, abandoned also directly from waiting, plus the
trivial stay-put transitions; written from the specification's words. -/
def specAllowedTransition (a b : String) : Bool :=
  (a == b)
  || (a == "waiting" && b == "playing")
  || (a == "playing" && (b == "finished" || b == "draw" || b == "abandoned"))
  || (a == "waiting" && b == "abandoned")

/-- No player object of any container carries a socketId property value:
true of every state the server can reach, because no assignment to that
property exists anywhere in the code. -/
def noSocketIds (w : GameWorld) : Prop :=
  (∀ kv ∈ w.ludoGames, ∀ p ∈ kv.snd.players, p.socketId = none)
  ∧ (∀ kv ∈ w.ticTacToeGames, ∀ p ∈ kv.snd.players, p.socketId = none)
  ∧ (∀ kv ∈ w.unoGames, ∀ p ∈ kv.snd.players, p.socketId = none)

/-- Random draws that make the Fisher-Yates pass move one wild card (from
slot 100) down to slot 93, the card flipped to seed the discard pile after
fourteen cards are dealt to two players, and leave every other slot alone. -/
def cexRand : Nat → Nat := fun i => if i = 100 then 93 else i

/-- A one-player card match as POST /api/uno/create leaves it. -/
def cexUnoWaiting : UNOGame :=
  { id := "uno_1",
    players := [{ name := "alice", hand := [] }],
    deck := [], discardPile := [], currentPlayerIndex := 0,
    currentColor := "", currentNumber := "", direction := 1,
    status := "waiting" }

/-- A finished two-player race match (its winner got four pieces home). -/
def cexLudoFinished : LudoGame :=
  { id := "ludo_1",
    players := [{ name := "alice",
                  pieces := [⟨56, 0⟩, ⟨56, 1⟩, ⟨56, 2⟩, ⟨56, 3⟩],
                  piecesInGoal := 4 },
                { name := "bob", pieces := freshPieces, piecesInGoal := 0 }],
    status := "finished", currentPlayerIndex := 0,
    winner := some "alice" }

/-- A race match in full play, the state a timely reconnection would find. -/
def cexLudoPlaying : LudoGame :=
  { id := "ludo_9",
    players := [{ name := "alice", pieces := freshPieces, piecesInGoal := 0 },
                { name := "bob", pieces := freshPieces, piecesInGoal := 0 }],
    status := "playing", currentPlayerIndex := 0 }

/-- A running card match whose deck is exhausted while the discard pile
still holds two cards, the acting player holding a draw-two. -/
def cexUnoEmptyDeck : UNOGame :=
  { id := "uno_7",
    players := [{ name := "alice",
                  hand := [⟨"red", "draw2", "special"⟩, ⟨"red", "5", "number"⟩] },
                { name := "bob", hand := [⟨"blue", "7", "number"⟩] }],
    deck := [],
    discardPile := [⟨"green", "3", "number"⟩, ⟨"red", "9", "number"⟩],
    currentPlayerIndex := 0, currentColor := "red", currentNumber := "9",
    direction := 1, status := "playing" }

/-- A small running card match used to exercise the step relation: alice is
about to play her red 5 onto a red 9. -/
def cexUnoSmall : UNOGame :=
  { id := "uno_2",
    players := [{ name := "alice", hand := [⟨"red", "5", "number"⟩] },
                { name := "bob", hand := [⟨"blue", "7", "number"⟩] }],
    deck := [⟨"green", "2", "number"⟩],
    discardPile := [⟨"red", "9", "number"⟩],
    currentPlayerIndex := 0, currentColor := "red", currentNumber := "9",
    direction := 1, status := "playing" }

/-- A one-player chess match as POST /api/chess/create leaves it. -/
def cexChessWaiting : ChessGame :=
  { id := "c1", players := ["alice"], board := initializeChessBoard,
    turn := "white", status := "waiting" }

/-- A world whose only match is a running race game in which the
authenticated user alice participates by name. -/
def cexWorld : GameWorld :=
  { chessGames := [],
    ludoGames := [("ludo_9", cexLudoPlaying)],
    ticTacToeGames := [], unoGames := [] }

theorem jsPop_some_length {l l' : List α} {x : α} (h : jsPop l = some (x, l')) :
    l.length = l'.length + 1 := by
  unfold jsPop at h
  cases hl : l.getLast? with
  | none => rw [hl] at h; exact absurd h (by simp)
  | some y =>
    rw [hl] at h
    have hne : l ≠ [] := by intro hnil; rw [hnil] at hl; simp at hl
    have hpos : 0 < l.length := List.length_pos.mpr hne
    simp only [Option.some.injEq, Prod.mk.injEq] at h
    obtain ⟨-, h2⟩ := h
    subst h2
    simp [List.length_dropLast]
    omega

theorem popMany_length (n : Nat) (d : List α) :
    (popMany n d).fst.length + (popMany n d).snd.length = d.length := by
  induction n generalizing d with
  | zero => simp [popMany]
  | succ n ih =>
    unfold popMany
    cases hp : jsPop d with
    | none => simp
    | some cd =>
      obtain ⟨c, d'⟩ := cd
      have h1 := jsPop_some_length hp
      have h2 := ih d'
      simp only [List.length_cons]
      omega

theorem jsSwap_length (l : List α) (i j : Nat) :
    (jsSwap l i j).length = l.length := by
  unfold jsSwap
  cases l[i]? <;> cases l[j]? <;> simp

theorem shuffleSteps_length (rand : Nat → Nat) (l : List α) (n : Nat) :
    (shuffleSteps rand l n).length = l.length := by
  induction n generalizing l with
  | zero => rfl
  | succ n ih =>
    unfold shuffleSteps
    rw [ih, jsSwap_length]

theorem shuffleArray_length (rand : Nat → Nat) (l : List α) :
    (shuffleArray rand l).length = l.length :=
  shuffleSteps_length rand l (l.length - 1)

theorem createUNODeck_length : createUNODeck.length = 108 := by decide

theorem dealAll_count (ps : List UNOPlayer) (d : List Card) :
    ((dealAll ps d).fst.map (fun p => p.hand.length)).sum
      + (dealAll ps d).snd.length = d.length := by
  induction ps generalizing d with
  | nil => simp [dealAll]
  | cons p ps ih =>
    unfold dealAll
    have h7 := popMany_length 7 d
    have h2 := ih (popMany 7 d).snd
    simp only [List.map_cons, List.sum_cons]
    omega

theorem burnFromTop_length {l rest : List Card} {c : Card}
    (h : burnFromTop l = some (c, rest)) :
    l.length
      = (l.takeWhile (fun x => x.ctype = "wild")).length + 1 + rest.length := by
  induction l with
  | nil => simp [burnFromTop] at h
  | cons a l ih =>
    unfold burnFromTop at h
    by_cases ha : a.ctype = "wild"
    · rw [if_pos ha] at h
      have := ih h
      simp [List.takeWhile_cons, ha]
      omega
    · rw [if_neg ha] at h
      simp only [Option.some.injEq, Prod.mk.injEq] at h
      obtain ⟨-, h2⟩ := h
      subst h2
      simp [List.takeWhile_cons, ha]
      omega

theorem burnToFirstNonWild_length {l rest : List Card} {c : Card}
    (h : burnToFirstNonWild l = some (c, rest)) :
    l.length = trailingWilds l + 1 + rest.length := by
  unfold burnToFirstNonWild at h
  have := burnFromTop_length h
  simp only [List.length_reverse] at this
  unfold trailingWilds
  omega

theorem initializeUNOGame_cardCount {rand : Nat → Nat} {g g' : UNOGame}
    (h : initializeUNOGame rand g = some g') :
    cardCount g' + trailingWilds (deckAfterDeal rand g) = 108 := by
  unfold initializeUNOGame at h
  dsimp only at h
  cases hb : burnToFirstNonWild
      (dealAll g.players (shuffleArray rand createUNODeck)).snd with
  | none => rw [hb] at h; simp at h
  | some cr =>
    obtain ⟨c, deck1⟩ := cr
    rw [hb] at h
    simp only [Option.some.injEq] at h
    subst h
    have hburn := burnToFirstNonWild_length hb
    have hdeal := dealAll_count g.players (shuffleArray rand createUNODeck)
    have hshuf : (shuffleArray rand createUNODeck).length = 108 := by
      rw [shuffleArray_length, createUNODeck_length]
    unfold cardCount deckAfterDeal
    simp only [List.length_cons, List.length_nil]
    omega

theorem set_hand_sum {ps : List UNOPlayer} {i : Nat} {q : UNOPlayer}
    (p' : UNOPlayer) (hq : ps[i]? = some q) :
    ((ps.set i p').map (fun p => p.hand.length)).sum + q.hand.length
      = (ps.map (fun p => p.hand.length)).sum + p'.hand.length := by
  induction ps generalizing i with
  | nil => simp at hq
  | cons a ps ih =>
    cases i with
    | zero =>
      simp only [List.getElem?_cons_zero, Option.some.injEq] at hq
      subst hq
      simp [List.set]
      omega
    | succ i =>
      simp only [List.getElem?_cons_succ] at hq
      have := ih hq
      simp only [List.set, List.map_cons, List.sum_cons]
      omega

theorem setPlayerHand_sum (ps : List UNOPlayer) (i : Nat) (cs : List Card)
    (hi : i < ps.length) :
    ((setPlayerHand ps i (fun h => h ++ cs)).map (fun p => p.hand.length)).sum
      = (ps.map (fun p => p.hand.length)).sum + cs.length := by
  unfold setPlayerHand
  cases hq : ps[i]? with
  | none =>
    exact absurd hq (by simp [List.getElem?_eq_some_iff]; omega)
  | some p =>
    have := set_hand_sum (q := p) { p with hand := p.hand ++ cs } hq
    simp only [List.length_append] at this ⊢
    omega

theorem nextIdx_lt (idx : Nat) (dir : Int) {n : Nat} (hn : 0 < n) :
    nextIdx idx dir n < n :=
  Nat.mod_lt _ hn

theorem processUNOCardEffect_cardCount (g : UNOGame) (card : Card)
    (hne : 0 < g.players.length) :
    cardCount (processUNOCardEffect g card) = cardCount g := by
  have hlt := nextIdx_lt g.currentPlayerIndex g.direction hne
  unfold processUNOCardEffect
  dsimp only
  by_cases h1 : card.value = "skip"
  · rw [if_pos h1]; simp [cardCount]
  · rw [if_neg h1]
    by_cases h2 : card.value = "reverse"
    · rw [if_pos h2]
      by_cases h3 : g.players.length = 2
      · rw [if_pos h3]; simp [cardCount]
      · rw [if_neg h3]; simp [cardCount]
    · rw [if_neg h2]
      by_cases h4 : card.value = "draw2"
      · rw [if_pos h4]
        simp only [cardCount]
        rw [setPlayerHand_sum _ _ _ hlt]
        have := popMany_length 2 g.deck
        omega
      · rw [if_neg h4]
        by_cases h5 : card.value = "wild4"
        · rw [if_pos h5]
          simp only [cardCount]
          rw [setPlayerHand_sum _ _ _ hlt]
          have := popMany_length 4 g.deck
          omega
        · rw [if_neg h5]

theorem reshuffleUNODeck_cardCount (rand : Nat → Nat) (g : UNOGame)
    (hd : g.deck.length = 0) :
    cardCount (reshuffleUNODeck rand g) = cardCount g := by
  unfold reshuffleUNODeck
  split
  · rfl
  · cases hp : jsPop g.discardPile with
    | none => rfl
    | some tr =>
      obtain ⟨t, rest⟩ := tr
      have := jsPop_some_length hp
      simp [cardCount, shuffleArray_length]
      omega

theorem except_ok_if {c : Prop} [Decidable c] {X Y g' : UNOGame}
    (h : (if c then Except.ok (ε := Nat) X else Except.ok Y) = .ok g') :
    g' = X ∨ g' = Y := by
  split at h <;> simp only [Except.ok.injEq] at h <;> simp [h]

theorem cardCount_status_winner (x : UNOGame) (s : String) (w : Option String) :
    cardCount { x with status := s, winner := w } = cardCount x := rfl

theorem cardCount_cpi (x : UNOGame) (i : Nat) :
    cardCount { x with currentPlayerIndex := i } = cardCount x := rfl

theorem unoPlayCardCore_cardCount {u : String} {ci : Int} {cc : Option String}
    {g g' : UNOGame} (h : unoPlayCardCore u ci cc g = .ok g') :
    cardCount g' = cardCount g := by
  unfold unoPlayCardCore at h
  cases hcp : g.players[g.currentPlayerIndex]? with
  | none => rw [hcp] at h; exact absurd h (by simp)
  | some currentPlayer =>
    simp only [hcp] at h
    have hidx : g.currentPlayerIndex < g.players.length :=
      (List.getElem?_eq_some_iff.mp hcp).choose
    by_cases hname : currentPlayer.name = u
    · rw [if_neg (not_not_intro hname)] at h
      by_cases hlen : ci ≥ (currentPlayer.hand.length : Int)
      · rw [if_pos hlen] at h; exact absurd h (by simp)
      · rw [if_neg hlen] at h
        cases hcard : listGetInt currentPlayer.hand ci with
        | none => simp only [hcard] at h; exact absurd h (by simp)
        | some card =>
          simp only [hcard] at h
          by_cases hplay : canPlayUNOCard card g.currentColor g.currentNumber = true
          · rw [if_neg (not_not_intro hplay)] at h
            try dsimp only at h
            have hci : ci.toNat < currentPlayer.hand.length := by
              unfold listGetInt at hcard
              split at hcard
              · exact absurd hcard (by simp)
              · exact (List.getElem?_eq_some_iff.mp hcard).choose
            have herase : (currentPlayer.hand.eraseIdx ci.toNat).length + 1
                = currentPlayer.hand.length := List.length_eraseIdx_add_one hci
            have hset := set_hand_sum (q := currentPlayer)
              { currentPlayer with hand := currentPlayer.hand.eraseIdx ci.toNat } hcp
            rcases except_ok_if h with rfl | rfl
            · rw [cardCount_status_winner]
              refine (processUNOCardEffect_cardCount _ card ?_).trans ?_
              · simp only [List.length_set]
                omega
              · simp only [cardCount, List.length_append, List.length_cons,
                  List.length_nil] at hset ⊢
                omega
            · rw [cardCount_cpi]
              refine (processUNOCardEffect_cardCount _ card ?_).trans ?_
              · simp only [List.length_set]
                omega
              · simp only [cardCount, List.length_append, List.length_cons,
                  List.length_nil] at hset ⊢
                omega
          · rw [if_pos hplay] at h
            exact absurd h (by simp)
    · rw [if_pos hname] at h
      exact absurd h (by simp)

theorem unoDrawCardCore_cardCount {rand : Nat → Nat} {u : String}
    {g g' : UNOGame} (h : unoDrawCardCore rand u g = .ok g') :
    cardCount g' = cardCount g := by
  unfold unoDrawCardCore at h
  cases hcp : g.players[g.currentPlayerIndex]? with
  | none => rw [hcp] at h; exact absurd h (by simp)
  | some currentPlayer =>
    simp only [hcp] at h
    by_cases hname : currentPlayer.name = u
    · rw [if_neg (not_not_intro hname)] at h
      set g1 : UNOGame := if g.deck.length = 0 then reshuffleUNODeck rand g else g
        with hg1
      have hg1count : cardCount g1 = cardCount g := by
        rw [hg1]; split
        next hd => exact reshuffleUNODeck_cardCount rand g hd
        next => rfl
      have hg1players : g1.players = g.players := by
        rw [hg1]; split
        · unfold reshuffleUNODeck
          split
          · rfl
          · cases hp : jsPop g.discardPile with
            | none => rfl
            | some tr => rfl
        · rfl
      have hg1idx : g1.currentPlayerIndex = g.currentPlayerIndex := by
        rw [hg1]; split
        · unfold reshuffleUNODeck
          split
          · rfl
          · cases hp : jsPop g.discardPile with
            | none => rfl
            | some tr => rfl
        · rfl
      try dsimp only at h
      split at h
      · cases hp : jsPop g1.deck with
        | none =>
          rw [hp] at h
          simp only [Except.ok.injEq] at h
          subst h
          exact hg1count
        | some cd =>
          obtain ⟨c, deck'⟩ := cd
          simp only [hp] at h
          simp only [Except.ok.injEq] at h
          subst h
          have hpop := jsPop_some_length hp
          have hidx : g1.currentPlayerIndex < g1.players.length := by
            rw [hg1players, hg1idx]
            exact (List.getElem?_eq_some_iff.mp hcp).choose
          have hsum := setPlayerHand_sum g1.players g1.currentPlayerIndex [c] hidx
          simp only [cardCount, List.length_cons, List.length_nil] at hsum hg1count ⊢
          omega
      · simp only [Except.ok.injEq] at h
        subst h
        exact hg1count
    · rw [if_pos hname] at h
      exact absurd h (by simp)

theorem unoStep_cardCount {g g' : UNOGame} (h : UNOStep g g') :
    cardCount g' = cardCount g := by
  cases h with
  | play u ci cc hp => exact unoPlayCardCore_cardCount hp
  | draw rand u hp => exact unoDrawCardCore_cardCount hp

/-- C1 (amended): a freshly constructed deck has exactly 108 cards with the
specified distribution, and every accepted play-card or draw-card action —
including forced draws and reshuffles — preserves deck plus discard plus
the sum of hands, over any sequence of such actions; the initial deal
however burns the wilds flipped while seeding the discard pile, so right
after initialization the total is 108 minus the number of burned wilds
(exactly 108 only when the first flipped card is not wild). -/
theorem uno_deck_integrity :
    (createUNODeck.length = 108 ∧ specDeckDistribution = true)
    ∧ (∀ g g' : UNOGame, UNOStep g g' → cardCount g' = cardCount g)
    ∧ (∀ g g' : UNOGame, Relation.ReflTransGen UNOStep g g' →
        cardCount g' = cardCount g)
    ∧ (∀ (rand : Nat → Nat) (g g' : UNOGame),
        initializeUNOGame rand g = some g' →
        cardCount g' + trailingWilds (deckAfterDeal rand g) = 108) := by
  refine ⟨⟨createUNODeck_length, by decide⟩,
    fun g g' h => unoStep_cardCount h, ?_,
    fun rand g g' h => initializeUNOGame_cardCount h⟩
  intro g g' h
  induction h with
  | refl => rfl
  | tail _ hstep ih => exact (unoStep_cardCount hstep).trans ih

/-- C1 witness: the preservation half of the theorem applied to a concrete
accepted play in a small running match. -/
theorem uno_deck_integrity_witness :
    cardCount ((unoPlayCardCore "alice" 0 none cexUnoSmall).toOption.getD
        cexUnoSmall)
      = cardCount cexUnoSmall :=
  uno_deck_integrity.2.1 cexUnoSmall _ (UNOStep.play "alice" 0 none rfl)

set_option maxRecDepth 4000 in
/-- C1 counterexample: joining the second player into a freshly created card
match under these shuffle draws deals fourteen cards and then burns a wild
card while seeding the discard pile, leaving a reachable match state whose
deck, discard pile and hands hold 107 cards in total, not 108. -/
theorem uno_deck_integrity_counterexample :
    ((unoJoin cexRand "bob" "gamer" "uno_1"
        [("uno_1", cexUnoWaiting)]).fst.head?.map (fun kv => cardCount kv.snd))
      = some 107 := by decide

/-- C9: when admitting a new connection pushes the active counter beyond
the 300 ceiling, the socket receives the overload notice with its
retry-after hint and an immediate disconnect, and the global and the
matching classification counters return to their pre-admission values. -/
theorem overload_rollback :
    ∀ (st : ConnState) (isHomepageUser : Bool),
      maxConnections ≤ st.active →
      onConnection st isHomepageUser
        = (st, [ConnEvent.serverOverload
                  "Server at capacity, please try again in a few moments" 30000,
                ConnEvent.disconnected]) := by
  intro st hp h
  unfold onConnection
  rw [if_pos (by simp only [maxConnections] at h ⊢; omega)]
  cases hp <;> simp

/-- C9 witness: the rollback at the exact ceiling, for an authenticated
connection. -/
theorem overload_rollback_witness :
    onConnection ⟨300, 150, 150⟩ false
      = (⟨300, 150, 150⟩,
         [ConnEvent.serverOverload
            "Server at capacity, please try again in a few moments" 30000,
          ConnEvent.disconnected]) :=
  overload_rollback ⟨300, 150, 150⟩ false (by decide)

theorem unoPlayCardCore_neg_error {u : String} {ci : Int} {cc : Option String}
    {g : UNOGame} (hci : ci < 0) :
    ∀ g', ¬ unoPlayCardCore u ci cc g = .ok g' := by
  intro g' h
  unfold unoPlayCardCore at h
  cases hcp : g.players[g.currentPlayerIndex]? with
  | none => rw [hcp] at h; exact absurd h (by simp)
  | some currentPlayer =>
    simp only [hcp] at h
    by_cases hname : currentPlayer.name = u
    · rw [if_neg (not_not_intro hname)] at h
      have hlen : ¬ ci ≥ (currentPlayer.hand.length : Int) := by
        have : (0 : Int) ≤ (currentPlayer.hand.length : Int) := Int.natCast_nonneg _
        omega
      rw [if_neg hlen] at h
      have hnone : listGetInt currentPlayer.hand ci = none := by
        simp [listGetInt, hci]
      simp only [hnone] at h
      exact absurd h (by simp)
    · rw [if_pos hname] at h
      exact absurd h (by simp)

/-- C10: the play-card endpoint's hand-length guard only fires for indexes
at least the hand length, so it never rejects a negative index; the indexed
hand access then yields no card, and the request ends with the container
unchanged and zero broadcasts. -/
theorem negative_cardIndex_safe :
    ∀ (ci : Int), ci < 0 →
      (∀ n : Nat, ¬ ci ≥ (n : Int))
      ∧ (∀ hand : List Card, listGetInt hand ci = none)
      ∧ (∀ (u role gameId : String) (cc : Option String) (games : UnoMap),
          (unoPlayCard u role gameId ci cc games).fst = games
          ∧ (unoPlayCard u role gameId ci cc games).snd.fst = 0) := by
  intro ci hci
  refine ⟨fun n => by have : (0 : Int) ≤ (n : Int) := Int.natCast_nonneg _; omega,
    fun hand => by simp [listGetInt, hci], ?_⟩
  intro u role gameId cc games
  unfold unoPlayCard
  by_cases hrole : role = "gamer"
  · rw [if_neg (not_not_intro hrole)]
    split
    · exact ⟨rfl, rfl⟩
    · split
      · exact ⟨rfl, rfl⟩
      · next g g' hc => exact absurd hc (unoPlayCardCore_neg_error hci g')
  · rw [if_pos hrole]
    exact ⟨rfl, rfl⟩

/-- C10 witness: a concrete request with index -1 against a running match. -/
theorem negative_cardIndex_safe_witness :
    (unoPlayCard "alice" "gamer" "uno_2" (-1) none
        [("uno_2", cexUnoSmall)]).fst = [("uno_2", cexUnoSmall)]
    ∧ (unoPlayCard "alice" "gamer" "uno_2" (-1) none
        [("uno_2", cexUnoSmall)]).snd.fst = 0 :=
  (negative_cardIndex_safe (-1) (by decide)).2.2
    "alice" "gamer" "uno_2" none [("uno_2", cexUnoSmall)]

/-- C6: every embedded act endpoint (chess move, grid move, card play, card
draw, race roll) leaves the container untouched and broadcasts nothing when
it rejects a request, and emits exactly one gaming-room broadcast when it
accepts one. -/
theorem act_broadcast_discipline :
    (∀ (u role gid f t : String) (games : ChessMap),
      ((chessMove u role gid f t games).snd.snd.success = false →
        (chessMove u role gid f t games).fst = games
        ∧ (chessMove u role gid f t games).snd.fst = 0)
      ∧ ((chessMove u role gid f t games).snd.snd.success = true →
        (chessMove u role gid f t games).snd.fst = 1))
    ∧ (∀ (u role gid : String) (pos : Int) (games : TTTMap),
      ((tttMove u role gid pos games).snd.snd.success = false →
        (tttMove u role gid pos games).fst = games
        ∧ (tttMove u role gid pos games).snd.fst = 0)
      ∧ ((tttMove u role gid pos games).snd.snd.success = true →
        (tttMove u role gid pos games).snd.fst = 1))
    ∧ (∀ (u role gid : String) (ci : Int) (cc : Option String) (games : UnoMap),
      ((unoPlayCard u role gid ci cc games).snd.snd.success = false →
        (unoPlayCard u role gid ci cc games).fst = games
        ∧ (unoPlayCard u role gid ci cc games).snd.fst = 0)
      ∧ ((unoPlayCard u role gid ci cc games).snd.snd.success = true →
        (unoPlayCard u role gid ci cc games).snd.fst = 1))
    ∧ (∀ (rand : Nat → Nat) (u role gid : String) (games : UnoMap),
      ((unoDrawCard rand u role gid games).snd.snd.success = false →
        (unoDrawCard rand u role gid games).fst = games
        ∧ (unoDrawCard rand u role gid games).snd.fst = 0)
      ∧ ((unoDrawCard rand u role gid games).snd.snd.success = true →
        (unoDrawCard rand u role gid games).snd.fst = 1))
    ∧ (∀ (rand : Nat) (u role gid : String) (games : LudoMap),
      ((ludoRoll rand u role gid games).snd.snd.success = false →
        (ludoRoll rand u role gid games).fst = games
        ∧ (ludoRoll rand u role gid games).snd.fst = 0)
      ∧ ((ludoRoll rand u role gid games).snd.snd.success = true →
        (ludoRoll rand u role gid games).snd.fst = 1)) := by
  refine ⟨?_, ?_, ?_, ?_, ?_⟩
  · intro u role gid f t games
    unfold chessMove
    by_cases hrole : role = "gamer"
    · rw [if_neg (not_not_intro hrole)]
      split
      · simp
      · split <;> simp
    · rw [if_pos hrole]
      simp
  · intro u role gid pos games
    unfold tttMove
    by_cases hrole : role = "gamer"
    · rw [if_neg (not_not_intro hrole)]
      split
      · simp
      · split <;> simp
    · rw [if_pos hrole]
      simp
  · intro u role gid ci cc games
    unfold unoPlayCard
    by_cases hrole : role = "gamer"
    · rw [if_neg (not_not_intro hrole)]
      split
      · simp
      · split <;> simp
    · rw [if_pos hrole]
      simp
  · intro rand u role gid games
    unfold unoDrawCard
    by_cases hrole : role = "gamer"
    · rw [if_neg (not_not_intro hrole)]
      split
      · simp
      · split <;> simp
    · rw [if_pos hrole]
      simp
  · intro rand u role gid games
    unfold ludoRoll
    by_cases hrole : role = "gamer"
    · rw [if_neg (not_not_intro hrole)]
      split
      · simp
      · split <;> simp
    · rw [if_pos hrole]
      simp

/-- C6 witness: a non-gamer caller is rejected with no mutation and no
broadcast by the chess move endpoint. -/
theorem act_broadcast_discipline_witness :
    (chessMove "alice" "viewer" "g1" "e2" "e4" []).fst = ([] : ChessMap)
    ∧ (chessMove "alice" "viewer" "g1" "e2" "e4" []).snd.fst = 0 :=
  (act_broadcast_discipline.1 "alice" "viewer" "g1" "e2" "e4" []).1 rfl

theorem mapGet_mapSet_self (m : List (String × α)) (k : String) (v : α) :
    mapGet (mapSet m k v) k = some v := by
  unfold mapGet mapSet
  by_cases hk : m.any (fun kv => kv.fst = k)
  · rw [if_pos hk]
    induction m with
    | nil => simp at hk
    | cons a m ih =>
      by_cases ha : a.fst = k
      · rw [List.map_cons, if_pos ha,
          List.find?_cons_of_pos _ (by simp)]
        rfl
      · simp only [List.any_cons, Bool.or_eq_true, decide_eq_true_eq] at hk
        rcases hk with hk | hk
        · exact absurd hk ha
        · rw [List.map_cons, if_neg ha,
            List.find?_cons_of_neg _ (by simpa using ha)]
          exact ih (by simpa using hk)
  · rw [if_neg hk]
    induction m with
    | nil => simp
    | cons a m ih =>
      simp only [List.any_cons, Bool.or_eq_true, decide_eq_true_eq, not_or] at hk
      rw [List.cons_append,
        List.find?_cons_of_neg _ (by simpa using hk.1)]
      exact ih (by simpa using hk.2)

theorem mapGet_mapDelete_ne (m : List (String × α)) {k k' : String}
    (h : ¬ k = k') :
    mapGet (mapDelete m k') k = mapGet m k := by
  unfold mapGet mapDelete
  induction m with
  | nil => rfl
  | cons a m ih =>
    by_cases ha : a.fst = k'
    · rw [List.filter_cons_of_neg (by simpa using ha),
        List.find?_cons_of_neg _ (by simp; intro hak; exact h (hak ▸ ha))]
      exact ih
    · rw [List.filter_cons_of_pos (by simpa using ha)]
      by_cases hak : a.fst = k
      · rw [List.find?_cons_of_pos _ (by simpa using hak),
          List.find?_cons_of_pos _ (by simpa using hak)]
      · rw [List.find?_cons_of_neg _ (by simpa using hak),
          List.find?_cons_of_neg _ (by simpa using hak)]
        exact ih

theorem mapSet_length_mem (m : List (String × α)) (k : String) (v : α)
    (hk : m.any (fun kv => kv.fst = k)) :
    (mapSet m k v).length = m.length := by
  unfold mapSet
  rw [if_pos hk]
  simp

theorem mapSet_length_new (m : List (String × α)) (k : String) (v : α)
    (hk : ¬ m.any (fun kv => kv.fst = k)) :
    (mapSet m k v).length = m.length + 1 := by
  unfold mapSet
  rw [if_neg hk]
  simp

theorem setCachedAt_get {α : Type} (bound : Nat) (hb : 0 < bound) (ttl : Int)
    (httl : 0 < ttl) (now : Int) (cache : List (String × CacheEntry α))
    (k : String) (v : α) (hlen : cache.length ≤ bound) :
    (getCachedAt ttl now (setCachedAt bound now cache k v) k).fst = some v := by
  unfold getCachedAt setCachedAt
  by_cases hlen2 : (mapSet cache k ⟨v, now⟩).length > bound
  · rw [if_pos hlen2]
    have happend : ¬ cache.any (fun kv => kv.fst = k) := by
      intro hrep
      rw [mapSet_length_mem cache k ⟨v, now⟩ hrep] at hlen2
      omega
    have hcdef : mapSet cache k ⟨v, now⟩ = cache ++ [(k, ⟨v, now⟩)] := by
      unfold mapSet
      rw [if_neg happend]
    cases hcache : cache with
    | nil =>
      subst hcache
      rw [hcdef] at hlen2
      simp at hlen2
      omega
    | cons a rest =>
      subst hcache
      have hhead : (mapSet (a :: rest) k ⟨v, now⟩).head? = some a := by
        rw [hcdef]
        rfl
      rw [hhead]
      have hane : ¬ (k = a.fst) := by
        intro hk
        apply happend
        simp [hk.symm]
      rw [mapGet_mapDelete_ne _ hane, mapGet_mapSet_self]
      simp only [Int.sub_self]
      rw [if_pos httl]
  · rw [if_neg hlen2]
    rw [mapGet_mapSet_self]
    simp only [Int.sub_self]
    rw [if_pos httl]

/-- C8: for both cache tiers a set followed by a get at the same instant
returns the stored value (the read finds the entry the write just placed,
also across the bound-eviction); a get returns the stored data exactly when
the entry is younger than the tier's TTL and misses otherwise; and the read
path returns the cache unchanged, never evicting. -/
theorem cache_contract :
    ∀ (α : Type) (now : Int) (cache : List (String × CacheEntry α)) (k : String),
      (∀ v : α, cache.length ≤ 50 →
        (getCachedData now (setCachedData now cache k v) k).fst = some v)
      ∧ (∀ v : α, cache.length ≤ 20 →
        (getHomepageCachedData now (setHomepageCachedData now cache k v) k).fst
          = some v)
      ∧ (∀ e : CacheEntry α, mapGet cache k = some e →
          ((getCachedData now cache k).fst = some e.data
            ↔ now - e.timestamp < CACHE_DURATION)
          ∧ ((getHomepageCachedData now cache k).fst = some e.data
            ↔ now - e.timestamp < HOMEPAGE_CACHE_DURATION))
      ∧ (mapGet cache k = none →
          (getCachedData now cache k).fst = none
          ∧ (getHomepageCachedData now cache k).fst = none)
      ∧ ((getCachedData now cache k).snd = cache
          ∧ (getHomepageCachedData now cache k).snd = cache) := by
  intro α now cache k
  refine ⟨fun v h => setCachedAt_get 50 (by omega) _ (by decide) now cache k v h,
    fun v h => setCachedAt_get 20 (by omega) _ (by decide) now cache k v h,
    ?_, ?_, rfl, rfl⟩
  · intro e he
    unfold getCachedData getHomepageCachedData getCachedAt
    simp only [he]
    constructor <;> constructor
    · intro hsome
      by_contra hstale
      rw [if_neg hstale] at hsome
      exact absurd hsome (by simp)
    · intro hfresh
      rw [if_pos hfresh]
    · intro hsome
      by_contra hstale
      rw [if_neg hstale] at hsome
      exact absurd hsome (by simp)
    · intro hfresh
      rw [if_pos hfresh]
  · intro he
    unfold getCachedData getHomepageCachedData getCachedAt
    simp only [he]
    exact ⟨trivial, trivial⟩

/-- C8 witness: a concrete set-then-get round trip on the general tier. -/
theorem cache_contract_witness :
    (getCachedData 5 (setCachedData 5 [] "supply-2024" ("x" : String))
        "supply-2024").fst = some "x" :=
  (cache_contract String 5 [] "supply-2024").1 "x" (by decide)

theorem mapGet_mapDelete_self (m : List (String × α)) (k : String) :
    mapGet (mapDelete m k) k = none := by
  unfold mapGet mapDelete
  rw [Option.map_eq_none', List.find?_eq_none]
  intro kv hkv
  have := (List.mem_filter.mp hkv).2
  simpa using this

theorem mapGet_notMem_none (m : List (String × α)) (k : String)
    (h : ∀ kv ∈ m, ¬ kv.fst = k) :
    mapGet m k = none := by
  unfold mapGet
  rw [Option.map_eq_none', List.find?_eq_none]
  intro kv hkv
  simpa using h kv hkv

theorem cleanupLudoGames_spec (now : Int) (games : LudoMap) (k : String)
    (g : LudoGame) (hnodup : (games.map Prod.fst).Nodup)
    (hget : mapGet games k = some g) :
    mapGet (cleanupLudoGames now games) k = none
      ↔ (g.status = "abandoned" ∧ g.createdAt < now - 300000) := by
  induction games with
  | nil => simp [mapGet] at hget
  | cons a rest ih =>
    simp only [List.map_cons, List.nodup_cons] at hnodup
    by_cases ha : a.fst = k
    · have hg : a.snd = g := by
        unfold mapGet at hget
        rw [List.find?_cons_of_pos _ (by simpa using ha)] at hget
        simpa using hget
      subst hg
      by_cases hcond : a.snd.status = "abandoned" ∧ a.snd.createdAt < now - 300000
      · unfold cleanupLudoGames
        rw [List.filter_cons_of_neg
          (by simp only [decide_eq_true_eq]; exact not_not_intro hcond)]
        have : mapGet (List.filter
            (fun kv => decide ¬(kv.snd.status = "abandoned"
              ∧ kv.snd.createdAt < now - 300000)) rest) k = none := by
          apply mapGet_notMem_none
          intro kv hkv hk
          exact hnodup.1 ((hk.symm ▸ ha.symm ▸ rfl : kv.fst = a.fst) ▸
            List.mem_map_of_mem Prod.fst (List.mem_filter.mp hkv).1)
        exact iff_of_true this hcond
      · unfold cleanupLudoGames
        rw [List.filter_cons_of_pos
          (by simp only [decide_eq_true_eq]; exact hcond)]
        unfold mapGet
        rw [List.find?_cons_of_pos _ (by simpa using ha)]
        constructor
        · intro hh; exact absurd hh (by simp)
        · intro hh; exact absurd hh hcond
    · have hget' : mapGet rest k = some g := by
        unfold mapGet at hget ⊢
        rw [List.find?_cons_of_neg _ (by simpa using ha)] at hget
        exact hget
      have hrec := ih hnodup.2 hget'
      unfold cleanupLudoGames at hrec ⊢
      by_cases hcond : a.snd.status = "abandoned" ∧ a.snd.createdAt < now - 300000
      · rw [List.filter_cons_of_neg
          (by simp only [decide_eq_true_eq]; exact not_not_intro hcond)]
        exact hrec
      · rw [List.filter_cons_of_pos
          (by simp only [decide_eq_true_eq]; exact hcond)]
        unfold mapGet at hrec ⊢
        rw [List.find?_cons_of_neg _ (by simpa using ha)]
        exact hrec

/-- C4 (amended): the deferred deletion a disconnect schedules removes the
match unconditionally when it fires, with no look at the current status —
a match that was revived is deleted all the same; the status check exists
only in the independent periodic sweep, which deletes a match exactly when
it is abandoned and was created more than five minutes ago. -/
theorem deferred_delete_unconditional :
    (∀ (games : LudoMap) (gameId : String),
      mapGet (deferredLudoDelete games gameId) gameId = none)
    ∧ (∀ (now : Int) (games : LudoMap) (k : String) (g : LudoGame),
      (games.map Prod.fst).Nodup → mapGet games k = some g →
      (mapGet (cleanupLudoGames now games) k = none
        ↔ (g.status = "abandoned" ∧ g.createdAt < now - 300000))) :=
  ⟨fun games gameId => mapGet_mapDelete_self games gameId,
   fun now games k g h1 h2 => cleanupLudoGames_spec now games k g h1 h2⟩

/-- C4 witness: the sweep spares a playing match while the deferred timer
fires regardless. -/
theorem deferred_delete_unconditional_witness :
    (mapGet (cleanupLudoGames 1000000 [("ludo_9", cexLudoPlaying)]) "ludo_9"
        = none
      ↔ (cexLudoPlaying.status = "abandoned"
          ∧ cexLudoPlaying.createdAt < 1000000 - 300000))
    ∧ mapGet (deferredLudoDelete [("ludo_9", cexLudoPlaying)] "ludo_9")
        "ludo_9" = none :=
  ⟨deferred_delete_unconditional.2 1000000 [("ludo_9", cexLudoPlaying)]
      "ludo_9" cexLudoPlaying (by decide) (by decide),
   deferred_delete_unconditional.1 [("ludo_9", cexLudoPlaying)] "ludo_9"⟩

/-- C4 counterexample: the deferred deletion task fires on a container
whose match has meanwhile status playing and deletes it anyway, contrary to
the claim that a match not abandoned when the timer fires is never deleted
by that timer. -/
theorem deferred_delete_counterexample :
    cexLudoPlaying.status = "playing"
    ∧ mapGet (deferredLudoDelete [("ludo_9", cexLudoPlaying)] "ludo_9")
        "ludo_9" = none := by
  constructor
  · rfl
  · decide

theorem list_map_self {β : Type} (f : β → β) (l : List β)
    (h : ∀ x ∈ l, f x = x) : l.map f = l := by
  induction l with
  | nil => rfl
  | cons a rest ih =>
    rw [List.map_cons, h a (by simp),
      ih (fun x hx => h x (List.mem_cons_of_mem _ hx))]

theorem list_filter_nil {β : Type} (p : β → Bool) (l : List β)
    (h : ∀ x ∈ l, p x = false) : l.filter p = [] := by
  induction l with
  | nil => rfl
  | cons a rest ih =>
    rw [List.filter_cons_of_neg (by simp [h a (by simp)]),
      ih (fun x hx => h x (List.mem_cons_of_mem _ hx))]

/-- C2: the disconnect handler's cleanup compares the chess player list
against the never-assigned socket.sessionId property and the other three
variants against a socketId property that no player object ever receives,
so for every socket the middleware admits and every reachable world the
handler abandons nothing and schedules no deletion timer — no match ever
transitions to abandoned on disconnect, contrary to the claim. -/
theorem disconnect_cleanup_dead :
    ∀ (sid u r : String) (w : GameWorld), noSocketIds w →
      onDisconnectWorld (admittedSocket sid u r) false w = (w, 0) := by
  intro sid u r w hw
  obtain ⟨wc, wl, wt, wu⟩ := w
  obtain ⟨hw1, hw2, hw3⟩ := hw
  unfold onDisconnectWorld
  rw [if_neg (by simp)]
  unfold abandonMatching
  dsimp only
  simp only [Prod.mk.injEq, GameWorld.mk.injEq]
  refine ⟨⟨?_, ?_, ?_, ?_⟩, ?_⟩
  · exact list_map_self _ _ (fun kv hkv => rfl)
  · refine list_map_self _ _ (fun kv hkv => ?_)
    rw [if_neg (by
      simp only [List.any_eq_true, decide_eq_true_eq]
      rintro ⟨p, hp, hps⟩
      rw [hw1 kv hkv p hp] at hps
      exact absurd hps (by simp))]
  · refine list_map_self _ _ (fun kv hkv => ?_)
    rw [if_neg (by
      simp only [List.any_eq_true, decide_eq_true_eq]
      rintro ⟨p, hp, hps⟩
      rw [hw2 kv hkv p hp] at hps
      exact absurd hps (by simp))]
  · refine list_map_self _ _ (fun kv hkv => ?_)
    rw [if_neg (by
      simp only [List.any_eq_true, decide_eq_true_eq]
      rintro ⟨p, hp, hps⟩
      rw [hw3 kv hkv p hp] at hps
      exact absurd hps (by simp))]
  · have f1 : (wc.filter (fun kv =>
        match (admittedSocket sid u r).sessionId with
        | none => false
        | some s => kv.snd.players.contains s)) = [] :=
      list_filter_nil _ _ (fun kv hkv => rfl)
    have f2 : (wl.filter (fun kv => kv.snd.players.any
        (fun p => p.socketId = some (admittedSocket sid u r).sid))) = [] :=
      list_filter_nil _ _ (fun kv hkv => by
        rw [List.any_eq_false]
        intro p hp
        simp only [decide_eq_true_eq]
        rw [hw1 kv hkv p hp]
        simp)
    have f3 : (wt.filter (fun kv => kv.snd.players.any
        (fun p => p.socketId = some (admittedSocket sid u r).sid))) = [] :=
      list_filter_nil _ _ (fun kv hkv => by
        rw [List.any_eq_false]
        intro p hp
        simp only [decide_eq_true_eq]
        rw [hw2 kv hkv p hp]
        simp)
    have f4 : (wu.filter (fun kv => kv.snd.players.any
        (fun p => p.socketId = some (admittedSocket sid u r).sid))) = [] :=
      list_filter_nil _ _ (fun kv hkv => by
        rw [List.any_eq_false]
        intro p hp
        simp only [decide_eq_true_eq]
        rw [hw3 kv hkv p hp]
        simp)
    rw [f1, f2, f3, f4]
    rfl

/-- C2 witness and failing input: alice participates by name in a running
race match, yet her authenticated socket's disconnect leaves the world
untouched and schedules nothing. -/
theorem disconnect_cleanup_dead_witness :
    ((mapGet cexWorld.ludoGames "ludo_9").map
        (fun g => (g.players.map (fun p => p.name), g.status))
      = some (["alice", "bob"], "playing"))
    ∧ onDisconnectWorld (admittedSocket "s1" "alice" "gamer") false cexWorld
        = (cexWorld, 0) :=
  ⟨by decide, disconnect_cleanup_dead "s1" "alice" "gamer" cexWorld
    (by unfold noSocketIds; decide)⟩

theorem jsPop_eq_none {l : List α} (h : jsPop l = none) : l = [] := by
  unfold jsPop at h
  cases hl : l.getLast? with
  | none => simpa using hl
  | some x => rw [hl] at h; simp at h

theorem popMany_snd_length (n : Nat) (d : List α) :
    (popMany n d).snd.length = d.length - n := by
  induction n generalizing d with
  | zero => simp [popMany]
  | succ n ih =>
    unfold popMany
    cases hp : jsPop d with
    | none =>
      have hd : d = [] := jsPop_eq_none hp
      subst hd
      simp
    | some cd =>
      obtain ⟨c, d'⟩ := cd
      have h1 := jsPop_some_length hp
      dsimp only
      rw [ih d']
      omega

theorem list_set_self {β : Type} {l : List β} {i : Nat} {a : β}
    (h : l[i]? = some a) : l.set i a = l := by
  induction l generalizing i with
  | nil => simp at h
  | cons x rest ih =>
    cases i with
    | zero =>
      simp only [List.getElem?_cons_zero, Option.some.injEq] at h
      subst h
      rfl
    | succ i =>
      simp only [List.getElem?_cons_succ] at h
      simp only [List.set]
      rw [ih h]

theorem setPlayerHand_nil_append (ps : List UNOPlayer) (i : Nat) :
    setPlayerHand ps i (fun h => h ++ []) = ps := by
  unfold setPlayerHand
  cases hq : ps[i]? with
  | none => rfl
  | some p =>
    simp only [hq]
    have hp : ({ p with hand := p.hand ++ [] } : UNOPlayer) = p := by simp
    rw [hp]
    exact list_set_self hq

theorem drawCore_empty_reshuffles {rand : Nat → Nat} {u : String}
    {g g' : UNOGame} (hd : g.deck = []) (hdisc : 2 ≤ g.discardPile.length)
    (h : unoDrawCardCore rand u g = .ok g') :
    g'.discardPile.length = 1
    ∧ g'.deck.length + 2 = g.discardPile.length
    ∧ (g'.players.map (fun p => p.hand.length)).sum
        = (g.players.map (fun p => p.hand.length)).sum + 1 := by
  unfold unoDrawCardCore at h
  cases hcp : g.players[g.currentPlayerIndex]? with
  | none => rw [hcp] at h; exact absurd h (by simp)
  | some currentPlayer =>
    simp only [hcp] at h
    by_cases hname : currentPlayer.name = u
    · rw [if_neg (not_not_intro hname)] at h
      try dsimp only at h
      obtain ⟨t, rest, hpop⟩ :
          ∃ t rest, jsPop g.discardPile = some (t, rest) := by
        cases hp : jsPop g.discardPile with
        | none =>
          have := jsPop_eq_none hp
          rw [this] at hdisc
          simp at hdisc
        | some tr =>
          obtain ⟨t1, r1⟩ := tr
          exact ⟨t1, r1, rfl⟩
      have hrest := jsPop_some_length hpop
      have hresh : reshuffleUNODeck rand g
          = { g with deck := shuffleArray rand rest, discardPile := [t] } := by
        unfold reshuffleUNODeck
        rw [if_neg (by omega), hpop]
      have hd0 : g.deck.length = 0 := by rw [hd]; rfl
      rw [if_pos hd0, hresh] at h
      try dsimp only at h
      have hgt : (shuffleArray rand rest).length > 0 := by
        simp only [shuffleArray_length]
        omega
      rw [if_pos hgt] at h
      cases hp2 : jsPop (shuffleArray rand rest) with
      | none =>
        have hempty := jsPop_eq_none hp2
        have hlen := congrArg List.length hempty
        simp only [shuffleArray_length, List.length_nil] at hlen
        omega
      | some cd =>
        obtain ⟨c, deck'⟩ := cd
        simp only [hp2] at h
        simp only [Except.ok.injEq] at h
        subst h
        have hpop2 := jsPop_some_length hp2
        simp only [shuffleArray_length] at hpop2
        have hidx : g.currentPlayerIndex < g.players.length :=
          (List.getElem?_eq_some_iff.mp hcp).choose
        have hsum := setPlayerHand_sum g.players g.currentPlayerIndex [c] hidx
        refine ⟨rfl, ?_, ?_⟩
        · simp only []
          omega
        · simpa using hsum
    · rw [if_pos hname] at h
      exact absurd h (by simp)

/-- C7 (amended): only the explicit draw-card action reshuffles on an empty
deck — the discard pile collapses to its top card, the rest becomes the new
deck, and the acting player then draws one card; the forced draws of a
draw-two or draw-four never reshuffle: they pop only while the deck is
non-empty and leave the discard pile untouched, drawing min(N, deck size)
cards, so on an empty deck the victim draws nothing. -/
theorem empty_deck_reshuffle :
    (∀ (rand : Nat → Nat) (u : String) (g g' : UNOGame),
      g.deck = [] → 2 ≤ g.discardPile.length →
      unoDrawCardCore rand u g = .ok g' →
      g'.discardPile.length = 1
      ∧ g'.deck.length + 2 = g.discardPile.length
      ∧ (g'.players.map (fun p => p.hand.length)).sum
          = (g.players.map (fun p => p.hand.length)).sum + 1)
    ∧ (∀ (g : UNOGame) (card : Card), card.value = "draw2" →
        (processUNOCardEffect g card).discardPile = g.discardPile
        ∧ (processUNOCardEffect g card).deck.length = g.deck.length - 2
        ∧ (g.deck = [] → (processUNOCardEffect g card).players = g.players))
    ∧ (∀ (g : UNOGame) (card : Card), card.value = "wild4" →
        (processUNOCardEffect g card).discardPile = g.discardPile
        ∧ (processUNOCardEffect g card).deck.length = g.deck.length - 4
        ∧ (g.deck = [] → (processUNOCardEffect g card).players = g.players)) := by
  refine ⟨fun rand u g g' hd hdisc h => drawCore_empty_reshuffles hd hdisc h,
    ?_, ?_⟩
  · intro g card hv
    unfold processUNOCardEffect
    dsimp only
    rw [if_neg (by rw [hv]; decide), if_neg (by rw [hv]; decide), if_pos hv]
    refine ⟨rfl, ?_, ?_⟩
    · simp only [popMany_snd_length]
    · intro hdeck
      rw [hdeck]
      simp only [popMany, jsPop, List.getLast?_nil]
      exact setPlayerHand_nil_append g.players _
  · intro g card hv
    unfold processUNOCardEffect
    dsimp only
    rw [if_neg (by rw [hv]; decide), if_neg (by rw [hv]; decide),
      if_neg (by rw [hv]; decide), if_pos hv]
    refine ⟨rfl, ?_, ?_⟩
    · simp only [popMany_snd_length]
    · intro hdeck
      rw [hdeck]
      simp only [popMany, jsPop, List.getLast?_nil]
      exact setPlayerHand_nil_append g.players _

/-- C7 witness: a concrete explicit draw on an empty deck with a two-card
discard pile reshuffles and then draws one card. -/
theorem empty_deck_reshuffle_witness :
    ((unoDrawCardCore (fun i => i) "alice" cexUnoEmptyDeck).toOption.getD
        cexUnoEmptyDeck).discardPile.length = 1
    ∧ ((unoDrawCardCore (fun i => i) "alice" cexUnoEmptyDeck).toOption.getD
        cexUnoEmptyDeck).deck.length + 2 = cexUnoEmptyDeck.discardPile.length
    ∧ (((unoDrawCardCore (fun i => i) "alice" cexUnoEmptyDeck).toOption.getD
        cexUnoEmptyDeck).players.map (fun p => p.hand.length)).sum
        = (cexUnoEmptyDeck.players.map (fun p => p.hand.length)).sum + 1 :=
  empty_deck_reshuffle.1 (fun i => i) "alice" cexUnoEmptyDeck _
    rfl (by decide) rfl

/-- C7 counterexample: alice plays her draw-two while the deck is empty and
the discard pile holds two cards; the claim requires a reshuffle before the
forced draws, but the accepted play leaves the deck empty, grows the
discard pile to three cards, and bob draws nothing. -/
theorem empty_deck_reshuffle_counterexample :
    (unoPlayCardCore "alice" 0 none cexUnoEmptyDeck).toOption.map
        (fun g => (g.deck.length, g.discardPile.length,
          g.players.map (fun p => p.hand.length)))
      = some (0, 3, [1, 1]) := by decide

/-- C5: channel admission succeeds exactly when the handshake carries a
non-empty cookie header whose sid cookie is present and non-empty, whose
value decodeURIComponent accepts and maps to a value with the
signed-session prefix, yielding a non-empty session id (the part between
the prefix and the first dot) that resolves in the session store to a
session holding an authenticated user; on success the session's username
and role are the attached identity; a missing or empty header, a missing
or empty sid cookie, a decoded value without the prefix, an empty session
id and an unresolvable or user-less session each map to their typed
rejection, while a sid value on which decodeURIComponent throws ends in
the escaped URIError, neither admitted nor typed-rejected. -/
theorem session_bridge_admission :
    (∀ (store : List (String × Session)) (h : Option String) (u r : String),
      wsAuthenticate store h = .admitted u r ↔
        ∃ (header : String) (raw decoded : List Char) (sess : Session),
          h = some header
          ∧ ¬ header = ""
          ∧ cookieLookup (parseCookies header.data) ['s', 'i', 'd'] = some raw
          ∧ ¬ raw = []
          ∧ percentDecode raw = some decoded
          ∧ decoded.take 2 = sessionPrefix
          ∧ ¬ (charSplit '.' (decoded.drop 2)).headD [] = []
          ∧ sessionLookup store
              ((charSplit '.' (decoded.drop 2)).headD []).asString
              = some sess
          ∧ sess.user = some ⟨u, r⟩)
    ∧ (∀ store, wsAuthenticate store none = .rejectedNoCookies)
    ∧ (∀ store, wsAuthenticate store (some "") = .rejectedNoCookies)
    ∧ (∀ store (header : String),
        ¬ header = "" →
        (cookieLookup (parseCookies header.data) ['s', 'i', 'd'] = none
          ∨ cookieLookup (parseCookies header.data) ['s', 'i', 'd'] = some []) →
        wsAuthenticate store (some header) = .rejectedCookieMissing)
    ∧ (∀ store (header : String) (raw : List Char),
        ¬ header = "" →
        cookieLookup (parseCookies header.data) ['s', 'i', 'd'] = some raw →
        ¬ raw = [] →
        percentDecode raw = none →
        wsAuthenticate store (some header) = .uncaughtDecodeError)
    ∧ (∀ store (header : String) (raw decoded : List Char),
        ¬ header = "" →
        cookieLookup (parseCookies header.data) ['s', 'i', 'd'] = some raw →
        ¬ raw = [] →
        percentDecode raw = some decoded →
        ¬ decoded.take 2 = sessionPrefix →
        wsAuthenticate store (some header) = .rejectedInvalidFormat)
    ∧ (∀ store (header : String) (raw decoded : List Char),
        ¬ header = "" →
        cookieLookup (parseCookies header.data) ['s', 'i', 'd'] = some raw →
        ¬ raw = [] →
        percentDecode raw = some decoded →
        decoded.take 2 = sessionPrefix →
        (charSplit '.' (decoded.drop 2)).headD [] = [] →
        wsAuthenticate store (some header) = .rejectedInvalidSid)
    ∧ (∀ store (header : String) (raw decoded : List Char),
        ¬ header = "" →
        cookieLookup (parseCookies header.data) ['s', 'i', 'd'] = some raw →
        ¬ raw = [] →
        percentDecode raw = some decoded →
        decoded.take 2 = sessionPrefix →
        ¬ (charSplit '.' (decoded.drop 2)).headD [] = [] →
        (sessionLookup store
            ((charSplit '.' (decoded.drop 2)).headD []).asString
            = none
          ∨ ∃ sess, sessionLookup store
              ((charSplit '.' (decoded.drop 2)).headD []).asString
              = some sess ∧ sess.user = none) →
        wsAuthenticate store (some header) = .rejectedSessionNotFound) := by
  refine ⟨?_, fun store => rfl, fun store => rfl, ?_, ?_, ?_, ?_, ?_⟩
  · intro store h u r
    constructor
    · intro hadm
      unfold wsAuthenticate at hadm
      cases h with
      | none => exact absurd hadm (by simp)
      | some header =>
        try dsimp only at hadm
        by_cases hhe : header = ""
        · rw [if_pos hhe] at hadm; exact absurd hadm (by simp)
        · rw [if_neg hhe] at hadm
          try dsimp only at hadm
          cases hc : cookieLookup (parseCookies header.data) ['s', 'i', 'd'] with
          | none => simp only [hc] at hadm; exact absurd hadm (by simp)
          | some raw =>
            simp only [hc] at hadm
            by_cases hraw : raw = []
            · rw [if_pos hraw] at hadm; exact absurd hadm (by simp)
            · rw [if_neg hraw] at hadm
              try dsimp only at hadm
              cases hdec : percentDecode raw with
              | none => simp only [hdec] at hadm; exact absurd hadm (by simp)
              | some decoded =>
                simp only [hdec] at hadm
                by_cases hpre : decoded.take 2 = sessionPrefix
                · rw [if_neg (not_not_intro hpre)] at hadm
                  by_cases hsid :
                      (charSplit '.' (decoded.drop 2)).headD [] = []
                  · rw [if_pos hsid] at hadm; exact absurd hadm (by simp)
                  · rw [if_neg hsid] at hadm
                    cases hsess : sessionLookup store
                        ((charSplit '.'
                          (decoded.drop 2)).headD []).asString with
                    | none =>
                      simp only [hsess] at hadm
                      exact absurd hadm (by simp)
                    | some sess =>
                      simp only [hsess] at hadm
                      cases huser : sess.user with
                      | none =>
                        simp only [huser] at hadm
                        exact absurd hadm (by simp)
                      | some us =>
                        simp only [huser, WsAuthResult.admitted.injEq] at hadm
                        obtain ⟨h1, h2⟩ := hadm
                        exact ⟨header, raw, decoded, sess, rfl, hhe, hc, hraw,
                          hdec, hpre, hsid, hsess, by rw [huser, ← h1, ← h2]⟩
                · rw [if_pos hpre] at hadm
                  exact absurd hadm (by simp)
    · rintro ⟨header, raw, decoded, sess, rfl, hhe, hc, hraw, hdec, hpre,
        hsid, hsess, huser⟩
      unfold wsAuthenticate
      try dsimp only
      rw [if_neg hhe]
      try dsimp only
      simp only [hc]
      rw [if_neg hraw]
      try dsimp only
      simp only [hdec]
      rw [if_neg (not_not_intro hpre), if_neg hsid]
      simp only [hsess, huser]
  · intro store header hhe hmiss
    unfold wsAuthenticate
    try dsimp only
    rw [if_neg hhe]
    try dsimp only
    rcases hmiss with hc | hc <;> simp [hc]
  · intro store header raw hhe hc hraw hdec
    unfold wsAuthenticate
    try dsimp only
    rw [if_neg hhe]
    try dsimp only
    simp only [hc]
    rw [if_neg hraw]
    try dsimp only
    simp only [hdec]
  · intro store header raw decoded hhe hc hraw hdec hpre
    unfold wsAuthenticate
    try dsimp only
    rw [if_neg hhe]
    try dsimp only
    simp only [hc]
    rw [if_neg hraw]
    try dsimp only
    simp only [hdec]
    rw [if_pos hpre]
  · intro store header raw decoded hhe hc hraw hdec hpre hsid
    unfold wsAuthenticate
    try dsimp only
    rw [if_neg hhe]
    try dsimp only
    simp only [hc]
    rw [if_neg hraw]
    try dsimp only
    simp only [hdec]
    rw [if_neg (not_not_intro hpre), if_pos hsid]
  · intro store header raw decoded hhe hc hraw hdec hpre hsid hsess
    unfold wsAuthenticate
    try dsimp only
    rw [if_neg hhe]
    try dsimp only
    simp only [hc]
    rw [if_neg hraw]
    try dsimp only
    simp only [hdec]
    rw [if_neg (not_not_intro hpre), if_neg hsid]
    rcases hsess with hs | ⟨sess, hs, hu⟩
    · simp only [hs]
    · simp only [hs, hu]

/-- C5 witness: a live percent-encoded signed cookie for a stored
authenticated session decodes successfully and is admitted with the
session's identity attached. -/
theorem session_bridge_admission_witness :
    wsAuthenticate [("abc", { user := some ⟨"alice", "gamer"⟩ })]
        (some "sid=s%3Aabc.sig") = .admitted "alice" "gamer" :=
  (session_bridge_admission.1 [("abc", { user := some ⟨"alice", "gamer"⟩ })]
      (some "sid=s%3Aabc.sig") "alice" "gamer").mpr
    ⟨"sid=s%3Aabc.sig", "s%3Aabc.sig".data, "s:abc.sig".data,
     { user := some ⟨"alice", "gamer"⟩ },
     rfl, by decide, by decide, by decide, by decide, by decide, by decide,
     by decide, rfl⟩

/-- C5 counterexample: a sid cookie whose value ends in a lone percent
sign makes decodeURIComponent throw a URIError that nothing in the
middleware catches, so the handshake is neither admitted nor rejected
with one of the five typed reasons, refuting the claimed totality. -/
theorem session_bridge_admission_counterexample :
    admittedOrTypedReason
        (wsAuthenticate [("abc", { user := some ⟨"alice", "gamer"⟩ })]
          (some "sid=s:abc.sig%")) = false := by decide

theorem statusRank_le_two (s : String) : statusRank s ≤ 2 := by
  unfold statusRank
  split
  · omega
  · split <;> omega

theorem processUNOCardEffect_status (g : UNOGame) (card : Card) :
    (processUNOCardEffect g card).status = g.status := by
  unfold processUNOCardEffect
  dsimp only
  split_ifs <;> rfl

theorem reshuffleUNODeck_status (rand : Nat → Nat) (g : UNOGame) :
    (reshuffleUNODeck rand g).status = g.status := by
  unfold reshuffleUNODeck
  split
  · rfl
  · cases hp : jsPop g.discardPile with
    | none => rfl
    | some tr => rfl

theorem abandonMatching_status {β : Type} (pred : β → Bool)
    (stat : β → String) (setStatus : β → String → β)
    (hset : ∀ b s, stat (setStatus b s) = s) (games : List (String × β)) :
    List.Forall₂
      (fun kv kv' => stat kv'.snd = stat kv.snd ∨ stat kv'.snd = "abandoned")
      games (abandonMatching pred setStatus games).fst := by
  unfold abandonMatching
  induction games with
  | nil => exact List.Forall₂.nil
  | cons a rest ih =>
    rw [List.map_cons]
    refine List.Forall₂.cons ?_ ih
    by_cases hp : pred a.snd = true
    · rw [if_pos hp]
      right
      exact hset a.snd "abandoned"
    · rw [if_neg hp]
      left
      rfl

theorem forall₂_status_refl {β : Type} (stat : β → String)
    (l : List (String × β)) :
    List.Forall₂
      (fun kv kv' => stat kv'.snd = stat kv.snd ∨ stat kv'.snd = "abandoned")
      l l := by
  induction l with
  | nil => exact List.Forall₂.nil
  | cons a rest ih => exact List.Forall₂.cons (Or.inl rfl) ih

theorem status_sw (x : UNOGame) (s : String) (w : Option String) :
    ({ x with status := s, winner := w } : UNOGame).status = s := rfl

theorem status_cpi (x : UNOGame) (i : Nat) :
    ({ x with currentPlayerIndex := i } : UNOGame).status = x.status := rfl

theorem chessMoveCore_status {u f t : String} {g g' : ChessGame}
    (h : chessMoveCore u f t g = .ok g') : g'.status = g.status := by
  unfold chessMoveCore isCheckmate isStalemate at h
  try dsimp only at h
  repeat' split at h
  all_goals
    first
      | (simp only [Except.ok.injEq] at h; subst h; rfl)
      | simp_all

theorem tttMoveCore_rank {u : String} {pos : Int} {g g' : TTTGame}
    (h : tttMoveCore u pos g = .ok g') :
    statusRank g.status ≤ statusRank g'.status := by
  unfold tttMoveCore at h
  split at h
  · exact absurd h (by simp)
  · cases hf : g.players.find? (fun p => p.name = u) with
    | none => rw [hf] at h; exact absurd h (by simp)
    | some player =>
      simp only [hf] at h
      split at h
      · exact absurd h (by simp)
      · cases hcell : listGetInt g.board pos with
        | none => simp only [hcell] at h; exact absurd h (by simp)
        | some cell =>
          simp only [hcell] at h
          split at h
          · exact absurd h (by simp)
          · try dsimp only at h
            cases hw : checkTicTacToeWinner (g.board.set pos.toNat player.symbol) with
            | some w =>
              simp only [hw] at h
              simp only [Except.ok.injEq] at h
              subst h
              calc statusRank g.status ≤ 2 := statusRank_le_two _
                _ = statusRank "finished" := by decide
            | none =>
              simp only [hw] at h
              split at h
              · simp only [Except.ok.injEq] at h
                subst h
                calc statusRank g.status ≤ 2 := statusRank_le_two _
                  _ = statusRank "draw" := by decide
              · simp only [Except.ok.injEq] at h
                subst h
                exact Nat.le_refl _

theorem unoPlayCardCore_rank {u : String} {ci : Int} {cc : Option String}
    {g g' : UNOGame} (h : unoPlayCardCore u ci cc g = .ok g') :
    statusRank g.status ≤ statusRank g'.status := by
  unfold unoPlayCardCore at h
  cases hcp : g.players[g.currentPlayerIndex]? with
  | none => rw [hcp] at h; exact absurd h (by simp)
  | some currentPlayer =>
    simp only [hcp] at h
    by_cases hname : currentPlayer.name = u
    · rw [if_neg (not_not_intro hname)] at h
      by_cases hlen : ci ≥ (currentPlayer.hand.length : Int)
      · rw [if_pos hlen] at h; exact absurd h (by simp)
      · rw [if_neg hlen] at h
        cases hcard : listGetInt currentPlayer.hand ci with
        | none => simp only [hcard] at h; exact absurd h (by simp)
        | some card =>
          simp only [hcard] at h
          by_cases hplay : canPlayUNOCard card g.currentColor g.currentNumber = true
          · rw [if_neg (not_not_intro hplay)] at h
            try dsimp only at h
            rcases except_ok_if h with rfl | rfl
            · rw [status_sw]
              calc statusRank g.status ≤ 2 := statusRank_le_two _
                _ = statusRank "finished" := by decide
            · rw [status_cpi, processUNOCardEffect_status]
          · rw [if_pos hplay] at h
            exact absurd h (by simp)
    · rw [if_pos hname] at h
      exact absurd h (by simp)

theorem unoDrawCardCore_status {rand : Nat → Nat} {u : String}
    {g g' : UNOGame} (h : unoDrawCardCore rand u g = .ok g') :
    g'.status = g.status := by
  unfold unoDrawCardCore at h
  cases hcp : g.players[g.currentPlayerIndex]? with
  | none => rw [hcp] at h; exact absurd h (by simp)
  | some currentPlayer =>
    simp only [hcp] at h
    by_cases hname : currentPlayer.name = u
    · rw [if_neg (not_not_intro hname)] at h
      set g1 : UNOGame :=
        if g.deck.length = 0 then reshuffleUNODeck rand g else g with hg1
      have hst : g1.status = g.status := by
        rw [hg1]
        split
        · exact reshuffleUNODeck_status rand g
        · rfl
      try dsimp only at h
      split at h
      · cases hp : jsPop g1.deck with
        | none =>
          rw [hp] at h
          simp only [Except.ok.injEq] at h
          subst h
          exact hst
        | some cd =>
          obtain ⟨c, deck'⟩ := cd
          simp only [hp] at h
          simp only [Except.ok.injEq] at h
          subst h
          exact hst
      · simp only [Except.ok.injEq] at h
        subst h
        exact hst
    · rw [if_pos hname] at h
      exact absurd h (by simp)

theorem ludoJoinCore_status {u : String} {g g' : LudoGame}
    (h : ludoJoinCore u g = .ok g') : g'.status = g.status := by
  unfold ludoJoinCore at h
  split at h
  · exact absurd h (by simp)
  · split at h
    · exact absurd h (by simp)
    · simp only [Except.ok.injEq] at h
      subst h
      rfl

theorem ludoRollCore_status {rand : Nat} {u : String} {g : LudoGame}
    {gr : LudoGame × Nat} (h : ludoRollCore rand u g = .ok gr) :
    gr.fst.status = g.status := by
  unfold ludoRollCore at h
  cases hcp : g.players[g.currentPlayerIndex]? with
  | none => rw [hcp] at h; exact absurd h (by simp)
  | some currentPlayer =>
    simp only [hcp] at h
    split at h
    · exact absurd h (by simp)
    · split at h
      · exact absurd h (by simp)
      · try dsimp only at h
        simp only [Except.ok.injEq] at h
        subst h
        rfl

theorem ludoMoveSocket_rank {u : String} {pi dr : Int} {g g' : LudoGame}
    (h : ludoMoveSocket u pi dr g = some g') :
    statusRank g.status ≤ statusRank g'.status := by
  unfold ludoMoveSocket at h
  have hst : g.status = "playing" := by
    by_contra hns
    rw [if_pos hns] at h
    exact absurd h (by simp)
  rw [if_neg (not_not_intro hst)] at h
  try dsimp only at h
  repeat' split at h
  all_goals
    first
      | (simp only [Option.some.injEq] at h
         subst h
         simp [statusRank, hst])
      | simp_all [statusRank]

theorem ludoStartCore_status (pc : Int) (ac : Bool)
    (gm d : Option String) (g : LudoGame) :
    (ludoStartCore pc ac gm d g).status = "playing" := by
  unfold ludoStartCore
  dsimp only

theorem chessJoinCore_status {u : String} {g g' : ChessGame}
    (h : chessJoinCore u g = .ok g') : g'.status = "playing" := by
  unfold chessJoinCore at h
  split at h
  · exact absurd h (by simp)
  · split at h
    · exact absurd h (by simp)
    · simp only [Except.ok.injEq] at h
      subst h
      rfl

theorem unoJoinCore_status {rand : Nat → Nat} {u : String} {g g' : UNOGame}
    (h : unoJoinCore rand u g = .ok g') :
    g'.status = "playing" ∨ g'.status = g.status := by
  unfold unoJoinCore at h
  split at h
  · exact absurd h (by simp)
  · split at h
    · exact absurd h (by simp)
    · try dsimp only at h
      split at h
      · cases hi : initializeUNOGame rand
            { g with
              players := g.players ++ [{ name := u, hand := [] }],
              status := "playing" } with
        | none => simp only [hi] at h; exact absurd h (by simp)
        | some g2 =>
          simp only [hi] at h
          simp only [Except.ok.injEq] at h
          subst h
          left
          unfold initializeUNOGame at hi
          dsimp only at hi
          cases hb : burnToFirstNonWild
              (dealAll (g.players ++ [{ name := u, hand := [] }])
                (shuffleArray rand createUNODeck)).snd with
          | none => rw [hb] at hi; simp at hi
          | some cr =>
            obtain ⟨c, deck1⟩ := cr
            rw [hb] at hi
            simp only [Option.some.injEq] at hi
            subst hi
            rfl
      · simp only [Except.ok.injEq] at h
        subst h
        right
        rfl

/-- C3 (amended): per operation, the status rank (waiting before playing
before the terminal statuses) never decreases for chess moves (which never
write status, the end-of-game detectors being stubs), grid moves and card
plays (which write only terminal statuses), card draws, race joins and race
rolls (which write no status), race piece-moves (which write only finished)
and the disconnect cleanup (which writes only abandoned); but the race
start endpoint writes playing unconditionally, chess join writes playing
whenever fewer than two players are present, and card join re-initializes
to playing on any join that reaches two players, so a finished match can
return to playing — the no-reversal claim fails at the race start endpoint
(see the counterexample), while for chess the reversal is unreachable since
only one-player matches can be joined and one-player matches never finish. -/
theorem status_monotonic :
    (∀ (u f t : String) (g g' : ChessGame),
      chessMoveCore u f t g = .ok g' → g'.status = g.status)
    ∧ (∀ (u : String) (pos : Int) (g g' : TTTGame),
      tttMoveCore u pos g = .ok g' →
        statusRank g.status ≤ statusRank g'.status)
    ∧ (∀ (u : String) (ci : Int) (cc : Option String) (g g' : UNOGame),
      unoPlayCardCore u ci cc g = .ok g' →
        statusRank g.status ≤ statusRank g'.status)
    ∧ (∀ (rand : Nat → Nat) (u : String) (g g' : UNOGame),
      unoDrawCardCore rand u g = .ok g' → g'.status = g.status)
    ∧ (∀ (u : String) (g g' : LudoGame),
      ludoJoinCore u g = .ok g' → g'.status = g.status)
    ∧ (∀ (rand : Nat) (u : String) (g : LudoGame) (gr : LudoGame × Nat),
      ludoRollCore rand u g = .ok gr → gr.fst.status = g.status)
    ∧ (∀ (u : String) (pi dr : Int) (g g' : LudoGame),
      ludoMoveSocket u pi dr g = some g' →
        statusRank g.status ≤ statusRank g'.status)
    ∧ (∀ (sock : Socket) (hp : Bool) (w : GameWorld),
      List.Forall₂ (fun kv kv' =>
          kv'.snd.status = kv.snd.status ∨ kv'.snd.status = "abandoned")
        w.chessGames (onDisconnectWorld sock hp w).fst.chessGames
      ∧ List.Forall₂ (fun kv kv' =>
          kv'.snd.status = kv.snd.status ∨ kv'.snd.status = "abandoned")
        w.ludoGames (onDisconnectWorld sock hp w).fst.ludoGames
      ∧ List.Forall₂ (fun kv kv' =>
          kv'.snd.status = kv.snd.status ∨ kv'.snd.status = "abandoned")
        w.ticTacToeGames (onDisconnectWorld sock hp w).fst.ticTacToeGames
      ∧ List.Forall₂ (fun kv kv' =>
          kv'.snd.status = kv.snd.status ∨ kv'.snd.status = "abandoned")
        w.unoGames (onDisconnectWorld sock hp w).fst.unoGames)
    ∧ (∀ (pc : Int) (ac : Bool) (gm d : Option String) (g : LudoGame),
      (ludoStartCore pc ac gm d g).status = "playing")
    ∧ (∀ (u : String) (g g' : ChessGame),
      chessJoinCore u g = .ok g' → g'.status = "playing")
    ∧ (∀ (rand : Nat → Nat) (u : String) (g g' : UNOGame),
      unoJoinCore rand u g = .ok g' →
        g'.status = "playing" ∨ g'.status = g.status) := by
  refine ⟨fun u f t g g' h => chessMoveCore_status h,
    fun u p g g' h => tttMoveCore_rank h,
    fun u ci cc g g' h => unoPlayCardCore_rank h,
    fun rand u g g' h => unoDrawCardCore_status h,
    fun u g g' h => ludoJoinCore_status h,
    fun rand u g gr h => ludoRollCore_status h,
    fun u pi dr g g' h => ludoMoveSocket_rank h,
    ?_,
    fun pc ac gm d g => ludoStartCore_status pc ac gm d g,
    fun u g g' h => chessJoinCore_status h,
    fun rand u g g' h => unoJoinCore_status h⟩
  intro sock hp w
  unfold onDisconnectWorld
  cases hp with
  | true =>
    rw [if_pos rfl]
    exact ⟨forall₂_status_refl _ _, forall₂_status_refl _ _,
      forall₂_status_refl _ _, forall₂_status_refl _ _⟩
  | false =>
    rw [if_neg (by simp)]
    try dsimp only
    exact ⟨abandonMatching_status _ (fun (g : ChessGame) => g.status) _
        (fun b s => rfl) _,
      abandonMatching_status _ (fun (g : LudoGame) => g.status) _
        (fun b s => rfl) _,
      abandonMatching_status _ (fun (g : TTTGame) => g.status) _
        (fun b s => rfl) _,
      abandonMatching_status _ (fun (g : UNOGame) => g.status) _
        (fun b s => rfl) _⟩

/-- C3 witness: joining the waiting chess match moves it to playing. -/
theorem status_monotonic_witness :
    ((chessJoinCore "bob" cexChessWaiting).toOption.getD
        cexChessWaiting).status = "playing" :=
  status_monotonic.2.2.2.2.2.2.2.2.2.1 "bob" cexChessWaiting _ rfl

/-- C3 counterexample: the race start endpoint run on a finished match
rewrites its status to playing — a transition outside the claimed graph and
distinct from the abandoned-to-playing exception. -/
theorem status_monotonic_counterexample :
    cexLudoFinished.status = "finished"
    ∧ ((mapGet (ludoStart "gamer" "ludo_1" 2 false none none
          [("ludo_1", cexLudoFinished)]).fst "ludo_1").map
        (fun g => g.status)) = some "playing"
    ∧ specAllowedTransition "finished" "playing" = false :=
  ⟨rfl, by decide, by decide⟩

end Engine